import Mathlib

/-!
Shallow embedding of src/RED3bot.py, a Tron account watcher that polls the
transaction history of one account and forwards Telegram notifications for
native TRX transfers and TRC-20 USDT transfers above configured thresholds.

Modelling conventions:
* Python dict lookups with defaults (`val.get("amount", 0)` etc.) are modelled
  by total structure fields holding the post-default value; the source reads
  `raw_data.contract[0]`, and the embedding models that first contract entry
  directly.
* Python float arithmetic (`int(...) / 1_000_000`, thresholds, `round(x, 2)`,
  `f"{x:.2f}"`) is idealised over exact rationals; `:.2f` and `round` use
  round-half-to-even as CPython does.
* External calls (the balance query, each Telegram send) are recorded as
  events in a trace.  Whether a given external call raises is driven by an
  oracle list consumed one entry per call; the empty oracle means every call
  succeeds.  A raising call is delivered nowhere and contributes no event.
* The infinite `while True` loop is modelled as a fold over a finite list of
  poll outcomes; each outcome is the provider response of one iteration
  (either a transport or a decoding failure, or a JSON body whose optional
  field is the `data` array).
-/

namespace RED3bot

/-- Error taxonomy of the driver loop: `network` stands for
`aiohttp.ClientError` and `asyncio.TimeoutError`, `other` for every other
exception; the payload is the exception text interpolated into the notice. -/
inductive Err where
  | network (msg : String)
  | other (msg : String)
deriving DecidableEq

/-- One entry of the `trc20TransferInfo` list of a transaction, with the
dict-lookup defaults already applied (`contract_address` and `to` default to
the empty string, `amount` to 0); `toAddr` models the `to` key, whose name is
reserved in Lean. -/
structure TokenInfo where
  contract_address : String
  amount : Nat
  toAddr : String
deriving DecidableEq

/-- The `parameter.value` object of the first contract entry of a native
transfer, defaults applied. -/
structure TxValue where
  amount : Nat
  to_address : String
deriving DecidableEq

/-- The first entry of `raw_data.contract` of a transaction. -/
structure Contract where
  type : String
  value : TxValue
deriving DecidableEq

/-- A transaction record as consumed by `handle_tx`: identifier, first
contract entry, and the (possibly empty, modelling an absent key)
`trc20TransferInfo` list. -/
structure Tx where
  txID : String
  contract : Contract
  trc20TransferInfo : List TokenInfo
deriving DecidableEq

/-- The environment-derived configuration used by the notification pipeline:
the two thresholds and `MY_HEX`, the raw hex encoding of the monitored
address (`base58.b58decode_check(TRON_ADDR).hex()`, hence lower-case). -/
structure Config where
  MIN_TRX : ℚ
  MIN_USDT : ℚ
  MY_HEX : String
deriving DecidableEq

/-- The TRC-20 USDT contract address in hex, copied from the source. -/
def USDT_HEX : String := "a614f803b6fd780986a42c78ec9c7f77e6ded13c"

/-- Character-wise lower-casing, the embedding of the Python `str.lower`
calls of `handle_tx` (the addresses involved are plain ASCII hex strings). -/
def lower (s : String) : String := ⟨s.data.map Char.toLower⟩

/-- Scaled native amount of a transaction:
`int(val.get("amount", 0)) / 1_000_000`. -/
def trxAmount (tx : Tx) : ℚ := (tx.contract.value.amount : ℚ) / 1000000

/-- Direction indicator of a native transfer: incoming exactly when the raw
destination address equals `MY_HEX` (an exact, case-sensitive comparison). -/
def trxDirection (cfg : Config) (tx : Tx) : String :=
  if tx.contract.value.to_address = cfg.MY_HEX then "⬇️ IN" else "⬆️ OUT"

/-- Scaled amount of a token sub-record:
`int(info.get("amount", 0)) / 1_000_000`. -/
def usdtAmount (info : TokenInfo) : ℚ := (info.amount : ℚ) / 1000000

/-- Direction indicator of a token sub-record: incoming exactly when the
lower-cased destination equals `MY_HEX`. -/
def usdtDirection (cfg : Config) (info : TokenInfo) : String :=
  if lower info.toAddr = cfg.MY_HEX then "⬇️ IN" else "⬆️ OUT"

/-- Observable external effects of the program, in execution order: a balance
query, a Telegram send of a native-transfer message (carrying the scaled
amount and direction it was built from), a Telegram send of a token-transfer
message, an insertion into the deduplication set, an error notice send, and a
sleep of the given number of seconds. -/
inductive Ev where
  | balQuery
  | sendTrx (txid : String) (amount : ℚ) (direction : String) (text : String)
  | sendUsdt (txid : String) (amount : ℚ) (direction : String) (text : String)
  | addSeen (txid : String)
  | notice (text : String)
  | sleep (secs : Nat)
deriving DecidableEq

/-- Floor of a rational, computed on the normalised numerator and denominator. -/
def qfloor (q : ℚ) : ℤ := Int.fdiv q.num q.den

/-- Round a rational to the nearest integer, ties to even (the rounding CPython
uses for `round` and for float formatting). -/
def rhe (q : ℚ) : ℤ :=
  if q - (qfloor q : ℚ) < 1 / 2 then qfloor q
  else if (1 : ℚ) / 2 < q - (qfloor q : ℚ) then qfloor q + 1
  else if qfloor q % 2 = 0 then qfloor q else qfloor q + 1

/-- Value produced by `get_balance`: the provider balance rounded to two
decimal places (`round(client.get_account_balance(TRON_ADDR), 2)`).  The raw
balance is a parameter of the run; the query itself is the `Ev.balQuery`
event. -/
def get_balance (bal : ℚ) : ℚ := (rhe (bal * 100) : ℚ) / 100

/-- Two-digit zero-padded rendering of a natural number below 100. -/
def pad2 (n : Nat) : String := if n < 10 then "0" ++ toString n else toString n

/-- Rendering of a nonnegative rational with exactly two decimal places,
modelling the `:.2f` format specifier. -/
def fmt2 (q : ℚ) : String :=
  toString (rhe (q * 100) / 100) ++ "." ++ pad2 (rhe (q * 100) % 100).toNat

/-- Rendering of the rounded balance as interpolated by the f-string,
modelling `str` of a nonnegative float that carries at most two decimals. -/
def balanceRepr (q : ℚ) : String :=
  if rhe (q * 100) % 100 = 0 then toString (rhe (q * 100) / 100) ++ ".0"
  else if rhe (q * 100) % 10 = 0 then
    toString (rhe (q * 100) / 100) ++ "." ++ toString ((rhe (q * 100) % 100) / 10)
  else toString (rhe (q * 100) / 100) ++ "." ++ pad2 (rhe (q * 100) % 100).toNat

/-- Explorer link for a transaction identifier (`trx_link` in the source). -/
def trx_link (txid : String) : String := "https://tronscan.org/#/transaction/" ++ txid

/-- Body of the native-transfer message built by `notify_trx`. -/
def trxText (direction : String) (amount : ℚ) (txid : String) (balance : ℚ) : String :=
  direction ++ " **" ++ fmt2 amount ++ " TRX**\n" ++ trx_link txid ++
    "\n💰 Balance: `" ++ balanceRepr balance ++ " TRX`"

/-- Body of the token-transfer message built by `notify_usdt`. -/
def usdtText (in_out : String) (amount : ℚ) (txid : String) : String :=
  in_out ++ " **" ++ fmt2 amount ++ " USDT**\n" ++ trx_link txid

/-- Total timeout, in seconds, of the fetch request
(`aiohttp.ClientTimeout(total=20)`). -/
def fetch_timeout : Nat := 20

/-- The transaction fetcher: given the provider interaction outcome (a
transport or decoding failure, or the optional `data` field of the JSON
body), return the data array, an empty list when the field is absent, or
propagate the failure to the caller (`fetch_transactions` in the source). -/
def fetch_transactions (resp : Except Err (Option (List Tx))) : Except Err (List Tx) :=
  match resp with
  | .error e => .error e
  | .ok d => .ok (d.getD [])

/-- Outcome of the next external call under the given oracle: the head entry,
with the empty oracle meaning success. -/
def callErr : List (Option Err) → Option Err
  | [] => none
  | e :: _ => e

/-- Remaining oracle after one external call. -/
def callRest : List (Option Err) → List (Option Err)
  | [] => []
  | _ :: r => r

/-- Result of a notify call: events emitted, remaining oracle, and the raised
exception if any. -/
structure NRes where
  trace : List Ev
  oracle : List (Option Err)
  err : Option Err
deriving DecidableEq

/-- Result of handling one transaction: events, deduplication set, remaining
oracle, raised exception. -/
structure HRes where
  trace : List Ev
  seen : List String
  oracle : List (Option Err)
  err : Option Err
deriving DecidableEq

/-- Result of a loop run: events, deduplication set, remaining oracle, and
the exception that escaped `main` and terminated the loop, if any (the
error-notice send of the two `except` arms sits outside any `try`, so when
it raises the loop dies). -/
structure LRes where
  trace : List Ev
  seen : List String
  oracle : List (Option Err)
  crashed : Option Err
deriving DecidableEq

/-- Embedding of `notify_trx`: below the TRX threshold return silently;
otherwise query the balance (an external call that may raise), build the
message, and send it (a second external call that may raise). -/
def notify_trx (cfg : Config) (bal : ℚ) (o : List (Option Err)) (tx : Tx)
    (amount : ℚ) (direction : String) : NRes :=
  if amount < cfg.MIN_TRX then ⟨[], o, none⟩
  else
    match callErr o with
    | some e => ⟨[], callRest o, some e⟩
    | none =>
      match callErr (callRest o) with
      | some e => ⟨[Ev.balQuery], callRest (callRest o), some e⟩
      | none =>
        ⟨[Ev.balQuery,
          Ev.sendTrx tx.txID amount direction
            (trxText direction amount tx.txID (get_balance bal))],
         callRest (callRest o), none⟩

/-- Embedding of `notify_usdt`: below the USDT threshold return silently;
otherwise send the message (one external call that may raise). -/
def notify_usdt (cfg : Config) (o : List (Option Err)) (txid : String)
    (amount : ℚ) (in_out : String) : NRes :=
  if amount < cfg.MIN_USDT then ⟨[], o, none⟩
  else
    match callErr o with
    | some e => ⟨[], callRest o, some e⟩
    | none => ⟨[Ev.sendUsdt txid amount in_out (usdtText in_out amount txid)], callRest o, none⟩

/-- The `for info in tx["trc20TransferInfo"]` loop of `handle_tx`: for each
entry whose contract address matches the USDT contract case-insensitively,
notify with the scaled amount and the direction computed from the lower-cased
destination; a raised exception aborts the rest of the loop. -/
def tokenLoop (cfg : Config) (o : List (Option Err)) (txid : String) :
    List TokenInfo → NRes
  | [] => ⟨[], o, none⟩
  | info :: rest =>
    if lower info.contract_address = USDT_HEX then
      let n := notify_usdt cfg o txid (usdtAmount info) (usdtDirection cfg info)
      match n.err with
      | some e => ⟨n.trace, n.oracle, some e⟩
      | none =>
        let r := tokenLoop cfg n.oracle txid rest
        ⟨n.trace ++ r.trace, r.oracle, r.err⟩
    else tokenLoop cfg o txid rest

/-- Embedding of `handle_tx`: skip identifiers already in the deduplication
set; otherwise run the native-transfer branch when the first contract entry
is a `TransferContract`, then the token loop, and only after both complete
without raising add the identifier to the set.  A raised exception leaves the
set untouched and propagates. -/
def handle_tx (cfg : Config) (bal : ℚ) (o : List (Option Err))
    (seen : List String) (tx : Tx) : HRes :=
  if tx.txID ∈ seen then ⟨[], seen, o, none⟩
  else
    let n :=
      if tx.contract.type = "TransferContract" then
        notify_trx cfg bal o tx (trxAmount tx) (trxDirection cfg tx)
      else ⟨[], o, none⟩
    match n.err with
    | some e => ⟨n.trace, seen, n.oracle, some e⟩
    | none =>
      let t := tokenLoop cfg n.oracle tx.txID tx.trc20TransferInfo
      match t.err with
      | some e => ⟨n.trace ++ t.trace, seen, t.oracle, some e⟩
      | none => ⟨n.trace ++ t.trace ++ [Ev.addSeen tx.txID], seen.insert tx.txID, t.oracle, none⟩

/-- Events a complete, non-raising run of the native branch of `handle_tx`
emits for one transaction. -/
def nativeEvs (cfg : Config) (bal : ℚ) (tx : Tx) : List Ev :=
  if tx.contract.type = "TransferContract" then
    if trxAmount tx < cfg.MIN_TRX then []
    else
      [Ev.balQuery,
       Ev.sendTrx tx.txID (trxAmount tx) (trxDirection cfg tx)
         (trxText (trxDirection cfg tx) (trxAmount tx) tx.txID (get_balance bal))]
  else []

/-- Events a complete, non-raising run of the token loop emits for one
`trc20TransferInfo` entry. -/
def tokenEvs (cfg : Config) (txid : String) (info : TokenInfo) : List Ev :=
  if lower info.contract_address = USDT_HEX then
    if usdtAmount info < cfg.MIN_USDT then []
    else
      [Ev.sendUsdt txid (usdtAmount info) (usdtDirection cfg info)
        (usdtText (usdtDirection cfg info) (usdtAmount info) txid)]
  else []

/-- Events a complete, non-raising `handle_tx` emits for one unseen
transaction: native branch, token loop, and the final deduplication insert. -/
def txEvents (cfg : Config) (bal : ℚ) (tx : Tx) : List Ev :=
  (nativeEvs cfg bal tx ++ tx.trc20TransferInfo.flatMap (tokenEvs cfg tx.txID)) ++
    [Ev.addSeen tx.txID]

/-- The `for t in await fetch_transactions(): await handle_tx(t)` body of one
loop iteration: handle the fetched transactions in order, aborting the rest
of the page when a handler raises. -/
def pollTxs (cfg : Config) (bal : ℚ) :
    List (Option Err) → List String → List Tx → HRes
  | o, seen, [] => ⟨[], seen, o, none⟩
  | o, seen, tx :: rest =>
    let r := handle_tx cfg bal o seen tx
    match r.err with
    | some e => ⟨r.trace, r.seen, r.oracle, some e⟩
    | none =>
      let r₂ := pollTxs cfg bal r.oracle r.seen rest
      ⟨r.trace ++ r₂.trace, r₂.seen, r₂.oracle, r₂.err⟩

/-- The notice text the two `except` arms of `main` send: network errors
(`aiohttp.ClientError`, `asyncio.TimeoutError`) get the network notice, every
other exception the generic bot notice. -/
def errNotice : Err → String
  | .network m => "⚠️ Network error: " ++ m
  | .other m => "⚠️ Bot error: " ++ m

/-- The `while True` loop of `main` over a finite list of poll outcomes: a
successful iteration processes the fetched page and sleeps 15; a raised
exception (from the fetch itself or from a handler) is caught by the
matching `except` arm, which sends one notice of the matching class — an
external call that consumes the oracle and may itself raise, since
`bot.send_message` in the arm sits outside any `try`.  When the notice send
succeeds the loop sleeps 30 and carries on with the next iteration; when it
raises, the new exception escapes `main` and the loop terminates, leaving
the remaining iterations unprocessed. -/
def mainLoop (cfg : Config) (bal : ℚ) :
    List (Option Err) → List String → List (Except Err (Option (List Tx))) → LRes
  | o, seen, [] => ⟨[], seen, o, none⟩
  | o, seen, resp :: rest =>
    match fetch_transactions resp with
    | .error e =>
      match callErr o with
      | some e₂ => ⟨[], seen, callRest o, some e₂⟩
      | none =>
        let r := mainLoop cfg bal (callRest o) seen rest
        ⟨Ev.notice (errNotice e) :: Ev.sleep 30 :: r.trace, r.seen, r.oracle, r.crashed⟩
    | .ok txs =>
      let p := pollTxs cfg bal o seen txs
      match p.err with
      | some e =>
        match callErr p.oracle with
        | some e₂ => ⟨p.trace, p.seen, callRest p.oracle, some e₂⟩
        | none =>
          let r := mainLoop cfg bal (callRest p.oracle) p.seen rest
          ⟨p.trace ++ Ev.notice (errNotice e) :: Ev.sleep 30 :: r.trace,
           r.seen, r.oracle, r.crashed⟩
      | none =>
        let r := mainLoop cfg bal p.oracle p.seen rest
        ⟨p.trace ++ Ev.sleep 15 :: r.trace, r.seen, r.oracle, r.crashed⟩

/-- Deduplication set seeded by the startup fetch of `main`: every identifier
of the initial page, or the empty set when the startup fetch fails (the
failure is swallowed and nothing is sent). -/
def startupSeen (resp : Except Err (Option (List Tx))) : List String :=
  match fetch_transactions resp with
  | .error _ => []
  | .ok txs => txs.foldl (fun s t => s.insert t.txID) []

/-- Embedding of `main`: seed the deduplication set from the startup fetch,
then run the polling loop. -/
def main (cfg : Config) (bal : ℚ) (startResp : Except Err (Option (List Tx)))
    (o : List (Option Err)) (resps : List (Except Err (Option (List Tx)))) : LRes :=
  mainLoop cfg bal o (startupSeen startResp) resps

/-- Whether an event is a Telegram notification (of either kind) for the
given transaction identifier. -/
def isSendFor (id : String) : Ev → Bool
  | .sendTrx i _ _ _ => i == id
  | .sendUsdt i _ _ _ => i == id
  | _ => false

/-- Whether an event is the deduplication insert of the given identifier. -/
def isAddFor (id : String) : Ev → Bool
  | .addSeen i => i == id
  | _ => false

/-- Whether an event is a native-transfer notification. -/
def isSendTrx : Ev → Bool
  | .sendTrx _ _ _ _ => true
  | _ => false

/-- Whether an event is an error notice. -/
def isNotice : Ev → Bool
  | .notice _ => true
  | _ => false

/-- Whether an event is a balance query. -/
def isBalQuery : Ev → Bool
  | .balQuery => true
  | _ => false

/-- The notifications a trace contains for one transaction identifier. -/
def sendsFor (id : String) (tr : List Ev) : List Ev := tr.filter (isSendFor id)

/-- The deduplication inserts a trace contains for one identifier. -/
def addsFor (id : String) (tr : List Ev) : List Ev := tr.filter (isAddFor id)

/-- Example configuration for concrete runs: both thresholds 1.0 (the
defaults), monitored raw address `ab`. -/
def exCfg : Config := ⟨1, 1, "ab"⟩

/-- Example transaction carrying both a native transfer of 5 TRX to the
monitored address and a matching USDT sub-record of 3 USDT. -/
def exTxBoth : Tx :=
  ⟨"t1", ⟨"TransferContract", ⟨5000000, "ab"⟩⟩, [⟨USDT_HEX, 3000000, "AB"⟩]⟩

/-- Example transaction: a single native transfer of 5 TRX to the monitored
address, no token sub-records. -/
def exTxNative : Tx := ⟨"tA", ⟨"TransferContract", ⟨5000000, "ab"⟩⟩, []⟩

/-- Example transaction: a native transfer of 0.5 TRX, below the threshold. -/
def exTxSmall : Tx := ⟨"tB", ⟨"TransferContract", ⟨500000, "ab"⟩⟩, []⟩

/-- Example transaction: a smart-contract call carrying one USDT sub-record
of 2 USDT whose destination is the upper-cased monitored address. -/
def exTxToken : Tx :=
  ⟨"t5", ⟨"TriggerSmartContract", ⟨0, ""⟩⟩, [⟨USDT_HEX, 2000000, "AB"⟩]⟩

/-- The native events a non-raising run of `notify_trx` emits, and what it
was called with by `handle_tx`. -/
def nativeBranch (cfg : Config) (bal : ℚ) (tx : Tx) (a : ℚ) (d : String) : List Ev :=
  if a < cfg.MIN_TRX then []
  else [Ev.balQuery, Ev.sendTrx tx.txID a d (trxText d a tx.txID (get_balance bal))]

/-- All notification events of a complete handling, that is `txEvents`
without the final deduplication insert. -/
def txPre (cfg : Config) (bal : ℚ) (tx : Tx) : List Ev :=
  nativeEvs cfg bal tx ++ tx.trc20TransferInfo.flatMap (tokenEvs cfg tx.txID)

/-- Lemma bundle below characterises each embedded function; claim theorems
are thin wrappers over these. -/
theorem notify_trx_spec (cfg : Config) (bal : ℚ) (o : List (Option Err)) (tx : Tx)
    (a : ℚ) (d : String) :
    ((notify_trx cfg bal o tx a d).err = none →
      (notify_trx cfg bal o tx a d).trace = nativeBranch cfg bal tx a d) ∧
    ((notify_trx cfg bal o tx a d).err ≠ none →
      (∃ rest, nativeBranch cfg bal tx a d = (notify_trx cfg bal o tx a d).trace ++ rest) ∧
        ¬ a < cfg.MIN_TRX) := by
  by_cases hlt : a < cfg.MIN_TRX
  · simp [notify_trx, nativeBranch, hlt]
  · rcases h : callErr o with _ | e
    · rcases h₂ : callErr (callRest o) with _ | e₂ <;>
        simp [notify_trx, nativeBranch, hlt, h, h₂, le_of_not_lt hlt]
    · simp [notify_trx, nativeBranch, hlt, h, le_of_not_lt hlt]

theorem notify_usdt_spec (cfg : Config) (o : List (Option Err)) (txid : String)
    (a : ℚ) (io : String) :
    ((notify_usdt cfg o txid a io).err = none →
      (notify_usdt cfg o txid a io).trace =
        if a < cfg.MIN_USDT then [] else [Ev.sendUsdt txid a io (usdtText io a txid)]) ∧
    ((notify_usdt cfg o txid a io).err ≠ none → (notify_usdt cfg o txid a io).trace = []) := by
  unfold notify_usdt
  split
  · simp
  · rcases h : callErr o with _ | e <;> simp [h]

theorem tokenLoop_spec (cfg : Config) (txid : String) :
    ∀ (infos : List TokenInfo) (o : List (Option Err)),
    ((tokenLoop cfg o txid infos).err = none →
      (tokenLoop cfg o txid infos).trace = infos.flatMap (tokenEvs cfg txid)) ∧
    ((tokenLoop cfg o txid infos).err ≠ none →
      ∃ rest, infos.flatMap (tokenEvs cfg txid) = (tokenLoop cfg o txid infos).trace ++ rest) := by
  intro infos
  induction infos with
  | nil => intro o; simp [tokenLoop]
  | cons info rest ih =>
    intro o
    by_cases hc : lower info.contract_address = USDT_HEX
    · rcases h : (notify_usdt cfg o txid (usdtAmount info) (usdtDirection cfg info)).err with _ | e
      · have htr := (notify_usdt_spec cfg o txid (usdtAmount info) (usdtDirection cfg info)).1 h
        have hloop : tokenLoop cfg o txid (info :: rest) =
            ⟨(notify_usdt cfg o txid (usdtAmount info) (usdtDirection cfg info)).trace ++
              (tokenLoop cfg (notify_usdt cfg o txid (usdtAmount info)
                (usdtDirection cfg info)).oracle txid rest).trace,
             (tokenLoop cfg (notify_usdt cfg o txid (usdtAmount info)
                (usdtDirection cfg info)).oracle txid rest).oracle,
             (tokenLoop cfg (notify_usdt cfg o txid (usdtAmount info)
                (usdtDirection cfg info)).oracle txid rest).err⟩ := by
          simp [tokenLoop, hc, h]
        rcases ih (notify_usdt cfg o txid (usdtAmount info) (usdtDirection cfg info)).oracle
          with ⟨ih1, ih2⟩
        constructor
        · intro herr
          rw [hloop] at herr ⊢
          simp only at herr
          simp [List.flatMap_cons, htr, ih1 herr, tokenEvs, hc]
        · intro herr
          rw [hloop] at herr ⊢
          simp only at herr
          rcases ih2 herr with ⟨r₂, hr₂⟩
          refine ⟨r₂, ?_⟩
          simp [List.flatMap_cons, htr, tokenEvs, hc, hr₂]
      · have htr := (notify_usdt_spec cfg o txid (usdtAmount info)
          (usdtDirection cfg info)).2 (by simp [h])
        have hloop : tokenLoop cfg o txid (info :: rest) =
            ⟨(notify_usdt cfg o txid (usdtAmount info) (usdtDirection cfg info)).trace,
             (notify_usdt cfg o txid (usdtAmount info) (usdtDirection cfg info)).oracle,
             some e⟩ := by
          simp [tokenLoop, hc, h]
        constructor
        · intro herr
          rw [hloop] at herr
          simp at herr
        · intro _
          refine ⟨tokenEvs cfg txid info ++ rest.flatMap (tokenEvs cfg txid), ?_⟩
          rw [hloop]
          simp [htr, List.flatMap_cons]
    · simpa [tokenLoop, hc, tokenEvs, List.flatMap_cons] using ih o

theorem handle_tx_skip (cfg : Config) (bal : ℚ) (o : List (Option Err))
    (seen : List String) (tx : Tx) (h : tx.txID ∈ seen) :
    handle_tx cfg bal o seen tx = ⟨[], seen, o, none⟩ := by
  simp [handle_tx, h]

theorem nativeEvs_eq (cfg : Config) (bal : ℚ) (tx : Tx)
    (h : tx.contract.type = "TransferContract") :
    nativeEvs cfg bal tx = nativeBranch cfg bal tx (trxAmount tx) (trxDirection cfg tx) := by
  simp [nativeEvs, nativeBranch, h]

theorem handle_tx_spec (cfg : Config) (bal : ℚ) (o : List (Option Err))
    (seen : List String) (tx : Tx) (h : tx.txID ∉ seen) :
    ((handle_tx cfg bal o seen tx).err = none →
      (handle_tx cfg bal o seen tx).trace = txEvents cfg bal tx ∧
      (handle_tx cfg bal o seen tx).seen = seen.insert tx.txID) ∧
    ((handle_tx cfg bal o seen tx).err ≠ none →
      (handle_tx cfg bal o seen tx).seen = seen ∧
      ∃ rest, txPre cfg bal tx = (handle_tx cfg bal o seen tx).trace ++ rest) := by
  by_cases hty : tx.contract.type = "TransferContract"
  · rcases hn : (notify_trx cfg bal o tx (trxAmount tx) (trxDirection cfg tx)).err with _ | e
    · have hntr := (notify_trx_spec cfg bal o tx (trxAmount tx) (trxDirection cfg tx)).1 hn
      rcases ht : (tokenLoop cfg
          (notify_trx cfg bal o tx (trxAmount tx) (trxDirection cfg tx)).oracle
          tx.txID tx.trc20TransferInfo).err with _ | e
      · have httr := (tokenLoop_spec cfg tx.txID tx.trc20TransferInfo
          (notify_trx cfg bal o tx (trxAmount tx) (trxDirection cfg tx)).oracle).1 ht
        have hH : handle_tx cfg bal o seen tx =
            ⟨(notify_trx cfg bal o tx (trxAmount tx) (trxDirection cfg tx)).trace ++
              (tokenLoop cfg
                (notify_trx cfg bal o tx (trxAmount tx) (trxDirection cfg tx)).oracle
                tx.txID tx.trc20TransferInfo).trace ++ [Ev.addSeen tx.txID],
             seen.insert tx.txID,
             (tokenLoop cfg
               (notify_trx cfg bal o tx (trxAmount tx) (trxDirection cfg tx)).oracle
               tx.txID tx.trc20TransferInfo).oracle, none⟩ := by
          simp [handle_tx, h, hty, hn, ht]
        rw [hH]
        constructor
        · intro _
          refine ⟨?_, rfl⟩
          simp [txEvents, hntr, httr, nativeEvs_eq cfg bal tx hty]
        · intro hcontra
          simp at hcontra
      · have httr := (tokenLoop_spec cfg tx.txID tx.trc20TransferInfo
          (notify_trx cfg bal o tx (trxAmount tx) (trxDirection cfg tx)).oracle).2 (by simp [ht])
        have hH : handle_tx cfg bal o seen tx =
            ⟨(notify_trx cfg bal o tx (trxAmount tx) (trxDirection cfg tx)).trace ++
              (tokenLoop cfg
                (notify_trx cfg bal o tx (trxAmount tx) (trxDirection cfg tx)).oracle
                tx.txID tx.trc20TransferInfo).trace,
             seen,
             (tokenLoop cfg
               (notify_trx cfg bal o tx (trxAmount tx) (trxDirection cfg tx)).oracle
               tx.txID tx.trc20TransferInfo).oracle, some e⟩ := by
          simp [handle_tx, h, hty, hn, ht]
        rw [hH]
        constructor
        · intro hcontra; simp at hcontra
        · intro _
          refine ⟨rfl, ?_⟩
          rcases httr with ⟨r₂, hr₂⟩
          refine ⟨r₂, ?_⟩
          simp [txPre, hntr, hr₂, nativeEvs_eq cfg bal tx hty]
    · have hntr := (notify_trx_spec cfg bal o tx (trxAmount tx) (trxDirection cfg tx)).2
        (by simp [hn])
      have hH : handle_tx cfg bal o seen tx =
          ⟨(notify_trx cfg bal o tx (trxAmount tx) (trxDirection cfg tx)).trace,
           seen,
           (notify_trx cfg bal o tx (trxAmount tx) (trxDirection cfg tx)).oracle, some e⟩ := by
        simp [handle_tx, h, hty, hn]
      rw [hH]
      constructor
      · intro hcontra; simp at hcontra
      · intro _
        refine ⟨rfl, ?_⟩
        rcases hntr with ⟨⟨r₁, hr₁⟩, _⟩
        refine ⟨r₁ ++ tx.trc20TransferInfo.flatMap (tokenEvs cfg tx.txID), ?_⟩
        simp [txPre, nativeEvs_eq cfg bal tx hty, hr₁]
  · rcases ht : (tokenLoop cfg o tx.txID tx.trc20TransferInfo).err with _ | e
    · have httr := (tokenLoop_spec cfg tx.txID tx.trc20TransferInfo o).1 ht
      have hH : handle_tx cfg bal o seen tx =
          ⟨(tokenLoop cfg o tx.txID tx.trc20TransferInfo).trace ++ [Ev.addSeen tx.txID],
           seen.insert tx.txID,
           (tokenLoop cfg o tx.txID tx.trc20TransferInfo).oracle, none⟩ := by
        simp [handle_tx, h, hty, ht]
      rw [hH]
      constructor
      · intro _
        refine ⟨?_, rfl⟩
        simp [txEvents, httr, nativeEvs, hty]
      · intro hcontra; simp at hcontra
    · have httr := (tokenLoop_spec cfg tx.txID tx.trc20TransferInfo o).2 (by simp [ht])
      have hH : handle_tx cfg bal o seen tx =
          ⟨(tokenLoop cfg o tx.txID tx.trc20TransferInfo).trace,
           seen,
           (tokenLoop cfg o tx.txID tx.trc20TransferInfo).oracle, some e⟩ := by
        simp [handle_tx, h, hty, ht]
      rw [hH]
      constructor
      · intro hcontra; simp at hcontra
      · intro _
        refine ⟨rfl, ?_⟩
        rcases httr with ⟨r₂, hr₂⟩
        refine ⟨r₂, ?_⟩
        simp [txPre, nativeEvs, hty, hr₂]

theorem txEvents_eq (cfg : Config) (bal : ℚ) (tx : Tx) :
    txEvents cfg bal tx = txPre cfg bal tx ++ [Ev.addSeen tx.txID] := rfl

theorem notify_trx_nil (cfg : Config) (bal : ℚ) (tx : Tx) (a : ℚ) (d : String) :
    notify_trx cfg bal [] tx a d = ⟨nativeBranch cfg bal tx a d, [], none⟩ := by
  by_cases hlt : a < cfg.MIN_TRX <;> simp [notify_trx, nativeBranch, hlt, callErr, callRest]

theorem notify_usdt_nil (cfg : Config) (txid : String) (a : ℚ) (io : String) :
    notify_usdt cfg [] txid a io =
      ⟨if a < cfg.MIN_USDT then [] else [Ev.sendUsdt txid a io (usdtText io a txid)],
       [], none⟩ := by
  by_cases hlt : a < cfg.MIN_USDT <;> simp [notify_usdt, hlt, callErr, callRest]

theorem tokenLoop_nil (cfg : Config) (txid : String) :
    ∀ infos : List TokenInfo,
    tokenLoop cfg [] txid infos = ⟨infos.flatMap (tokenEvs cfg txid), [], none⟩ := by
  intro infos
  induction infos with
  | nil => simp [tokenLoop]
  | cons info rest ih =>
    by_cases hc : lower info.contract_address = USDT_HEX
    · by_cases hm : usdtAmount info < cfg.MIN_USDT <;>
        simp [tokenLoop, hc, hm, notify_usdt_nil, ih, tokenEvs, List.flatMap_cons]
    · simp [tokenLoop, hc, ih, tokenEvs, List.flatMap_cons]

theorem handle_tx_nil (cfg : Config) (bal : ℚ) (seen : List String) (tx : Tx)
    (h : tx.txID ∉ seen) :
    handle_tx cfg bal [] seen tx =
      ⟨txEvents cfg bal tx, seen.insert tx.txID, [], none⟩ := by
  by_cases hty : tx.contract.type = "TransferContract"
  · simp [handle_tx, h, hty, notify_trx_nil, tokenLoop_nil, txEvents,
      nativeEvs_eq cfg bal tx hty]
  · simp [handle_tx, h, hty, tokenLoop_nil, txEvents, nativeEvs, List.flatMap_cons]

theorem handle_tx_nil_state (cfg : Config) (bal : ℚ) (seen : List String) (tx : Tx) :
    (handle_tx cfg bal [] seen tx).err = none ∧
    (handle_tx cfg bal [] seen tx).oracle = [] := by
  by_cases h : tx.txID ∈ seen
  · simp [handle_tx_skip cfg bal [] seen tx h]
  · simp [handle_tx_nil cfg bal seen tx h]

theorem mem_nativeEvs (cfg : Config) (bal : ℚ) (tx : Tx) (e : Ev) :
    e ∈ nativeEvs cfg bal tx ↔
      tx.contract.type = "TransferContract" ∧ ¬ trxAmount tx < cfg.MIN_TRX ∧
        (e = Ev.balQuery ∨
          e = Ev.sendTrx tx.txID (trxAmount tx) (trxDirection cfg tx)
            (trxText (trxDirection cfg tx) (trxAmount tx) tx.txID (get_balance bal))) := by
  by_cases hty : tx.contract.type = "TransferContract" <;>
    by_cases hm : trxAmount tx < cfg.MIN_TRX <;> simp [nativeEvs, hty, hm]

theorem mem_tokenEvs (cfg : Config) (txid : String) (info : TokenInfo) (e : Ev) :
    e ∈ tokenEvs cfg txid info ↔
      lower info.contract_address = USDT_HEX ∧ ¬ usdtAmount info < cfg.MIN_USDT ∧
        e = Ev.sendUsdt txid (usdtAmount info) (usdtDirection cfg info)
          (usdtText (usdtDirection cfg info) (usdtAmount info) txid) := by
  by_cases hc : lower info.contract_address = USDT_HEX <;>
    by_cases hm : usdtAmount info < cfg.MIN_USDT <;> simp [tokenEvs, hc, hm]

theorem mem_txPre (cfg : Config) (bal : ℚ) (tx : Tx) (e : Ev)
    (he : e ∈ txPre cfg bal tx) :
    e = Ev.balQuery ∨ (∃ a d s, e = Ev.sendTrx tx.txID a d s) ∨
      (∃ a d s, e = Ev.sendUsdt tx.txID a d s) := by
  rcases List.mem_append.mp he with hn | hf
  · rcases (mem_nativeEvs cfg bal tx e).mp hn with ⟨_, _, rfl | rfl⟩
    · left; rfl
    · right; left; exact ⟨_, _, _, rfl⟩
  · rcases List.mem_flatMap.mp hf with ⟨info, _, hi⟩
    rcases (mem_tokenEvs cfg tx.txID info e).mp hi with ⟨_, _, rfl⟩
    right; right; exact ⟨_, _, _, rfl⟩

theorem mem_handle_trace (cfg : Config) (bal : ℚ) (o : List (Option Err))
    (seen : List String) (tx : Tx) (e : Ev)
    (he : e ∈ (handle_tx cfg bal o seen tx).trace) :
    e = Ev.addSeen tx.txID ∨ e ∈ txPre cfg bal tx := by
  by_cases h : tx.txID ∈ seen
  · rw [handle_tx_skip cfg bal o seen tx h] at he
    simp at he
  · rcases handle_tx_spec cfg bal o seen tx h with ⟨h1, h2⟩
    rcases herr : (handle_tx cfg bal o seen tx).err with _ | e₂
    · rcases h1 herr with ⟨htr, _⟩
      rw [htr, txEvents_eq] at he
      rcases List.mem_append.mp he with hp | ha
      · right; exact hp
      · left; simpa using ha
    · rcases h2 (by simp [herr]) with ⟨_, r, hr⟩
      right
      rw [hr]
      exact List.mem_append_left _ he

theorem handle_err_no_add (cfg : Config) (bal : ℚ) (o : List (Option Err))
    (seen : List String) (tx : Tx)
    (herr : (handle_tx cfg bal o seen tx).err ≠ none) :
    ∀ i, Ev.addSeen i ∉ (handle_tx cfg bal o seen tx).trace := by
  intro i hi
  by_cases h : tx.txID ∈ seen
  · rw [handle_tx_skip cfg bal o seen tx h] at herr
    simp at herr
  · rcases (handle_tx_spec cfg bal o seen tx h).2 herr with ⟨_, r, hr⟩
    have : Ev.addSeen i ∈ txPre cfg bal tx := by
      rw [hr]; exact List.mem_append_left _ hi
    rcases mem_txPre cfg bal tx _ this with h' | ⟨_, _, _, h'⟩ | ⟨_, _, _, h'⟩ <;> simp at h'

theorem handle_tx_seen_cases (cfg : Config) (bal : ℚ) (o : List (Option Err))
    (seen : List String) (tx : Tx) :
    (handle_tx cfg bal o seen tx).seen = seen ∨
    (handle_tx cfg bal o seen tx).seen = seen.insert tx.txID := by
  by_cases h : tx.txID ∈ seen
  · left; rw [handle_tx_skip cfg bal o seen tx h]
  · rcases herr : (handle_tx cfg bal o seen tx).err with _ | e
    · right; exact ((handle_tx_spec cfg bal o seen tx h).1 herr).2
    · left; exact ((handle_tx_spec cfg bal o seen tx h).2 (by simp [herr])).1

theorem handle_tx_mono (cfg : Config) (bal : ℚ) (o : List (Option Err))
    (seen : List String) (tx : Tx) (x : String) (hx : x ∈ seen) :
    x ∈ (handle_tx cfg bal o seen tx).seen := by
  rcases handle_tx_seen_cases cfg bal o seen tx with h | h <;> rw [h]
  · exact hx
  · exact List.mem_insert_iff.mpr (Or.inr hx)

theorem handle_filter_ne (cfg : Config) (bal : ℚ) (o : List (Option Err))
    (seen : List String) (tx : Tx) (id : String) (hid : tx.txID ≠ id) :
    sendsFor id (handle_tx cfg bal o seen tx).trace = [] ∧
    addsFor id (handle_tx cfg bal o seen tx).trace = [] := by
  constructor <;>
  · refine List.filter_eq_nil_iff.mpr ?_
    intro e he
    rcases mem_handle_trace cfg bal o seen tx e he with rfl | hp
    · simp [isSendFor, isAddFor, hid]
    · rcases mem_txPre cfg bal tx e hp with rfl | ⟨a, d, s, rfl⟩ | ⟨a, d, s, rfl⟩ <;>
        simp [isSendFor, isAddFor, hid]

theorem handle_no_notice (cfg : Config) (bal : ℚ) (o : List (Option Err))
    (seen : List String) (tx : Tx) (e : Ev)
    (he : e ∈ (handle_tx cfg bal o seen tx).trace) : isNotice e = false := by
  rcases mem_handle_trace cfg bal o seen tx e he with rfl | hp
  · rfl
  · rcases mem_txPre cfg bal tx e hp with rfl | ⟨a, d, s, rfl⟩ | ⟨a, d, s, rfl⟩ <;> rfl

theorem addsFor_txPre (cfg : Config) (bal : ℚ) (tx : Tx) (id : String) :
    addsFor id (txPre cfg bal tx) = [] := by
  refine List.filter_eq_nil_iff.mpr ?_
  intro e he
  rcases mem_txPre cfg bal tx e he with rfl | ⟨a, d, s, rfl⟩ | ⟨a, d, s, rfl⟩ <;>
    simp [isAddFor]

theorem addsFor_txEvents (cfg : Config) (bal : ℚ) (tx : Tx) :
    addsFor tx.txID (txEvents cfg bal tx) = [Ev.addSeen tx.txID] := by
  rw [txEvents_eq]
  simp [addsFor, List.filter_append, addsFor_txPre cfg bal tx tx.txID, isAddFor]
  simpa [addsFor] using addsFor_txPre cfg bal tx tx.txID

theorem sendsFor_txEvents (cfg : Config) (bal : ℚ) (tx : Tx) (id : String) :
    sendsFor id (txEvents cfg bal tx) = sendsFor id (txPre cfg bal tx) := by
  rw [txEvents_eq]
  simp [sendsFor, List.filter_append, isSendFor]

theorem sendsFor_append (id : String) (a b : List Ev) :
    sendsFor id (a ++ b) = sendsFor id a ++ sendsFor id b := by
  simp [sendsFor, List.filter_append]

theorem addsFor_append (id : String) (a b : List Ev) :
    addsFor id (a ++ b) = addsFor id a ++ addsFor id b := by
  simp [addsFor, List.filter_append]

theorem pollTxs_cons_err (cfg : Config) (bal : ℚ) (o : List (Option Err))
    (seen : List String) (tx : Tx) (rest : List Tx) (e : Err)
    (herr : (handle_tx cfg bal o seen tx).err = some e) :
    pollTxs cfg bal o seen (tx :: rest) =
      ⟨(handle_tx cfg bal o seen tx).trace, (handle_tx cfg bal o seen tx).seen,
       (handle_tx cfg bal o seen tx).oracle, some e⟩ := by
  simp [pollTxs, herr]

theorem pollTxs_cons_ok (cfg : Config) (bal : ℚ) (o : List (Option Err))
    (seen : List String) (tx : Tx) (rest : List Tx)
    (herr : (handle_tx cfg bal o seen tx).err = none) :
    pollTxs cfg bal o seen (tx :: rest) =
      ⟨(handle_tx cfg bal o seen tx).trace ++
        (pollTxs cfg bal (handle_tx cfg bal o seen tx).oracle
          (handle_tx cfg bal o seen tx).seen rest).trace,
       (pollTxs cfg bal (handle_tx cfg bal o seen tx).oracle
         (handle_tx cfg bal o seen tx).seen rest).seen,
       (pollTxs cfg bal (handle_tx cfg bal o seen tx).oracle
         (handle_tx cfg bal o seen tx).seen rest).oracle,
       (pollTxs cfg bal (handle_tx cfg bal o seen tx).oracle
         (handle_tx cfg bal o seen tx).seen rest).err⟩ := by
  simp [pollTxs, herr]

theorem pollTxs_mono (cfg : Config) (bal : ℚ) :
    ∀ (txs : List Tx) (o : List (Option Err)) (seen : List String) (x : String),
    x ∈ seen → x ∈ (pollTxs cfg bal o seen txs).seen := by
  intro txs
  induction txs with
  | nil => intro o seen x hx; simpa [pollTxs] using hx
  | cons tx rest ih =>
    intro o seen x hx
    rcases herr : (handle_tx cfg bal o seen tx).err with _ | e
    · rw [pollTxs_cons_ok cfg bal o seen tx rest herr]
      exact ih _ _ _ (handle_tx_mono cfg bal o seen tx x hx)
    · rw [pollTxs_cons_err cfg bal o seen tx rest e herr]
      exact handle_tx_mono cfg bal o seen tx x hx

theorem pollTxs_absorb (cfg : Config) (bal : ℚ) :
    ∀ (txs : List Tx) (o : List (Option Err)) (seen : List String) (id : String),
    id ∈ seen →
    sendsFor id (pollTxs cfg bal o seen txs).trace = [] ∧
    addsFor id (pollTxs cfg bal o seen txs).trace = [] := by
  intro txs
  induction txs with
  | nil => intro o seen id _; simp [pollTxs, sendsFor, addsFor]
  | cons tx rest ih =>
    intro o seen id hid
    by_cases htid : tx.txID = id
    · have hskip := handle_tx_skip cfg bal o seen tx (htid ▸ hid)
      have herr : (handle_tx cfg bal o seen tx).err = none := by rw [hskip]
      rw [pollTxs_cons_ok cfg bal o seen tx rest herr, hskip]
      simpa [sendsFor, addsFor, List.filter_append, hskip] using ih o seen id hid
    · have hne := handle_filter_ne cfg bal o seen tx id htid
      rcases herr : (handle_tx cfg bal o seen tx).err with _ | e
      · rw [pollTxs_cons_ok cfg bal o seen tx rest herr]
        have hrest := ih (handle_tx cfg bal o seen tx).oracle
          (handle_tx cfg bal o seen tx).seen id
          (handle_tx_mono cfg bal o seen tx id hid)
        simp [sendsFor, addsFor, List.filter_append] at hne hrest ⊢
        exact ⟨⟨hne.1, hrest.1⟩, ⟨hne.2, hrest.2⟩⟩
      · rw [pollTxs_cons_err cfg bal o seen tx rest e herr]
        exact hne

theorem pollTxs_adds (cfg : Config) (bal : ℚ) :
    ∀ (txs : List Tx) (o : List (Option Err)) (seen : List String) (id : String),
    (addsFor id (pollTxs cfg bal o seen txs).trace).length ≤ 1 ∧
    (addsFor id (pollTxs cfg bal o seen txs).trace ≠ [] →
      id ∈ (pollTxs cfg bal o seen txs).seen) := by
  intro txs
  induction txs with
  | nil => intro o seen id; simp [pollTxs, addsFor]
  | cons tx rest ih =>
    intro o seen id
    by_cases htid : tx.txID = id
    · by_cases hid : id ∈ seen
      · have hskip := handle_tx_skip cfg bal o seen tx (htid ▸ hid)
        have herr : (handle_tx cfg bal o seen tx).err = none := by rw [hskip]
        rw [pollTxs_cons_ok cfg bal o seen tx rest herr, hskip]
        simpa using ih o seen id
      · rcases herr : (handle_tx cfg bal o seen tx).err with _ | e
        · have hmem : tx.txID ∉ seen := htid ▸ hid
          rcases (handle_tx_spec cfg bal o seen tx hmem).1 herr with ⟨htr, hsn⟩
          rw [pollTxs_cons_ok cfg bal o seen tx rest herr, htr, hsn]
          have hidin : id ∈ seen.insert tx.txID :=
            List.mem_insert_iff.mpr (Or.inl htid.symm)
          have habs := (pollTxs_absorb cfg bal rest
            (handle_tx cfg bal o seen tx).oracle (seen.insert tx.txID) id hidin).2
          have hadd : addsFor id (txEvents cfg bal tx) = [Ev.addSeen tx.txID] := by
            rw [← htid]; exact addsFor_txEvents cfg bal tx
          constructor
          · rw [addsFor_append, hadd, habs]
            simp
          · intro _
            exact pollTxs_mono cfg bal rest _ _ id hidin
        · have hnoadd := handle_err_no_add cfg bal o seen tx (by simp [herr])
          rw [pollTxs_cons_err cfg bal o seen tx rest e herr]
          have hz : addsFor id (handle_tx cfg bal o seen tx).trace = [] := by
            refine List.filter_eq_nil_iff.mpr ?_
            intro ev hev
            rcases mem_handle_trace cfg bal o seen tx ev hev with rfl | hp
            · exact absurd hev (hnoadd _)
            · rcases mem_txPre cfg bal tx ev hp with rfl | ⟨a, d, s, rfl⟩ | ⟨a, d, s, rfl⟩ <;>
                simp [isAddFor]
          refine ⟨by rw [hz]; simp, fun hcon => absurd hz hcon⟩
    · have hne := (handle_filter_ne cfg bal o seen tx id htid).2
      rcases herr : (handle_tx cfg bal o seen tx).err with _ | e
      · rw [pollTxs_cons_ok cfg bal o seen tx rest herr]
        have hrest := ih (handle_tx cfg bal o seen tx).oracle
          (handle_tx cfg bal o seen tx).seen id
        rw [addsFor_append, hne, List.nil_append]
        exact hrest
      · rw [pollTxs_cons_err cfg bal o seen tx rest e herr]
        refine ⟨by rw [hne]; simp, fun hcon => absurd hne hcon⟩

theorem pollTxs_nil_state (cfg : Config) (bal : ℚ) :
    ∀ (txs : List Tx) (seen : List String),
    (pollTxs cfg bal [] seen txs).err = none ∧
    (pollTxs cfg bal [] seen txs).oracle = [] := by
  intro txs
  induction txs with
  | nil => intro seen; simp [pollTxs]
  | cons tx rest ih =>
    intro seen
    rcases handle_tx_nil_state cfg bal seen tx with ⟨herr, hor⟩
    rw [pollTxs_cons_ok cfg bal [] seen tx rest herr, hor]
    exact ih (handle_tx cfg bal [] seen tx).seen

theorem pollTxs_no_notice (cfg : Config) (bal : ℚ) :
    ∀ (txs : List Tx) (o : List (Option Err)) (seen : List String),
    ∀ e ∈ (pollTxs cfg bal o seen txs).trace, isNotice e = false := by
  intro txs
  induction txs with
  | nil => intro o seen e he; simp [pollTxs] at he
  | cons tx rest ih =>
    intro o seen e he
    rcases herr : (handle_tx cfg bal o seen tx).err with _ | e₂
    · rw [pollTxs_cons_ok cfg bal o seen tx rest herr] at he
      rcases List.mem_append.mp he with hh | hr
      · exact handle_no_notice cfg bal o seen tx e hh
      · exact ih _ _ e hr
    · rw [pollTxs_cons_err cfg bal o seen tx rest e₂ herr] at he
      exact handle_no_notice cfg bal o seen tx e he

theorem pollTxs_sends (cfg : Config) (bal : ℚ) :
    ∀ (txs : List Tx) (seen : List String) (id : String),
    sendsFor id (pollTxs cfg bal [] seen txs).trace = [] ∨
    ∃ t ∈ txs, t.txID = id ∧ id ∈ (pollTxs cfg bal [] seen txs).seen ∧
      sendsFor id (pollTxs cfg bal [] seen txs).trace = sendsFor id (txEvents cfg bal t) := by
  intro txs
  induction txs with
  | nil => intro seen id; left; simp [pollTxs, sendsFor]
  | cons tx rest ih =>
    intro seen id
    rcases handle_tx_nil_state cfg bal seen tx with ⟨herr, hor⟩
    rw [pollTxs_cons_ok cfg bal [] seen tx rest herr, hor, sendsFor_append]
    by_cases htid : tx.txID = id
    · by_cases hid : id ∈ seen
      · have hskip := handle_tx_skip cfg bal [] seen tx (htid ▸ hid)
        rw [hskip]
        rcases ih seen id with h | ⟨t, ht, h₁, h₂, h₃⟩
        · left; simpa [sendsFor] using h
        · right; exact ⟨t, List.mem_cons_of_mem tx ht, h₁, h₂, by simpa [sendsFor] using h₃⟩
      · have hmem : tx.txID ∉ seen := htid ▸ hid
        rw [handle_tx_nil cfg bal seen tx hmem]
        have hidin : id ∈ seen.insert tx.txID :=
          List.mem_insert_iff.mpr (Or.inl htid.symm)
        have habs := (pollTxs_absorb cfg bal rest [] (seen.insert tx.txID) id hidin).1
        right
        refine ⟨tx, List.mem_cons_self tx rest, htid, ?_, ?_⟩
        · exact pollTxs_mono cfg bal rest _ _ id hidin
        · simp only at habs ⊢
          rw [habs, List.append_nil]
    · have hne := (handle_filter_ne cfg bal [] seen tx id htid).1
      rw [hne, List.nil_append]
      rcases ih (handle_tx cfg bal [] seen tx).seen id with h | ⟨t, ht, h₁, h₂, h₃⟩
      · left; exact h
      · right; exact ⟨t, List.mem_cons_of_mem tx ht, h₁, h₂, h₃⟩

theorem mainLoop_cons_fetchErr (cfg : Config) (bal : ℚ) (o : List (Option Err))
    (seen : List String) (resp : Except Err (Option (List Tx)))
    (rest : List (Except Err (Option (List Tx)))) (e : Err)
    (hf : fetch_transactions resp = .error e) (hn : callErr o = none) :
    mainLoop cfg bal o seen (resp :: rest) =
      ⟨Ev.notice (errNotice e) :: Ev.sleep 30 ::
        (mainLoop cfg bal (callRest o) seen rest).trace,
       (mainLoop cfg bal (callRest o) seen rest).seen,
       (mainLoop cfg bal (callRest o) seen rest).oracle,
       (mainLoop cfg bal (callRest o) seen rest).crashed⟩ := by
  simp [mainLoop, hf, hn]

theorem mainLoop_cons_fetchErrCrash (cfg : Config) (bal : ℚ) (o : List (Option Err))
    (seen : List String) (resp : Except Err (Option (List Tx)))
    (rest : List (Except Err (Option (List Tx)))) (e e₂ : Err)
    (hf : fetch_transactions resp = .error e) (hn : callErr o = some e₂) :
    mainLoop cfg bal o seen (resp :: rest) = ⟨[], seen, callRest o, some e₂⟩ := by
  simp [mainLoop, hf, hn]

theorem mainLoop_cons_pollErr (cfg : Config) (bal : ℚ) (o : List (Option Err))
    (seen : List String) (resp : Except Err (Option (List Tx)))
    (rest : List (Except Err (Option (List Tx)))) (txs : List Tx) (e : Err)
    (hf : fetch_transactions resp = .ok txs)
    (hp : (pollTxs cfg bal o seen txs).err = some e)
    (hn : callErr (pollTxs cfg bal o seen txs).oracle = none) :
    mainLoop cfg bal o seen (resp :: rest) =
      ⟨(pollTxs cfg bal o seen txs).trace ++ Ev.notice (errNotice e) :: Ev.sleep 30 ::
        (mainLoop cfg bal (callRest (pollTxs cfg bal o seen txs).oracle)
          (pollTxs cfg bal o seen txs).seen rest).trace,
       (mainLoop cfg bal (callRest (pollTxs cfg bal o seen txs).oracle)
         (pollTxs cfg bal o seen txs).seen rest).seen,
       (mainLoop cfg bal (callRest (pollTxs cfg bal o seen txs).oracle)
         (pollTxs cfg bal o seen txs).seen rest).oracle,
       (mainLoop cfg bal (callRest (pollTxs cfg bal o seen txs).oracle)
         (pollTxs cfg bal o seen txs).seen rest).crashed⟩ := by
  simp [mainLoop, hf, hp, hn]

theorem mainLoop_cons_pollErrCrash (cfg : Config) (bal : ℚ) (o : List (Option Err))
    (seen : List String) (resp : Except Err (Option (List Tx)))
    (rest : List (Except Err (Option (List Tx)))) (txs : List Tx) (e e₂ : Err)
    (hf : fetch_transactions resp = .ok txs)
    (hp : (pollTxs cfg bal o seen txs).err = some e)
    (hn : callErr (pollTxs cfg bal o seen txs).oracle = some e₂) :
    mainLoop cfg bal o seen (resp :: rest) =
      ⟨(pollTxs cfg bal o seen txs).trace, (pollTxs cfg bal o seen txs).seen,
       callRest (pollTxs cfg bal o seen txs).oracle, some e₂⟩ := by
  simp [mainLoop, hf, hp, hn]

theorem mainLoop_cons_ok (cfg : Config) (bal : ℚ) (o : List (Option Err))
    (seen : List String) (resp : Except Err (Option (List Tx)))
    (rest : List (Except Err (Option (List Tx)))) (txs : List Tx)
    (hf : fetch_transactions resp = .ok txs)
    (hp : (pollTxs cfg bal o seen txs).err = none) :
    mainLoop cfg bal o seen (resp :: rest) =
      ⟨(pollTxs cfg bal o seen txs).trace ++ Ev.sleep 15 ::
        (mainLoop cfg bal (pollTxs cfg bal o seen txs).oracle
          (pollTxs cfg bal o seen txs).seen rest).trace,
       (mainLoop cfg bal (pollTxs cfg bal o seen txs).oracle
         (pollTxs cfg bal o seen txs).seen rest).seen,
       (mainLoop cfg bal (pollTxs cfg bal o seen txs).oracle
         (pollTxs cfg bal o seen txs).seen rest).oracle,
       (mainLoop cfg bal (pollTxs cfg bal o seen txs).oracle
         (pollTxs cfg bal o seen txs).seen rest).crashed⟩ := by
  simp [mainLoop, hf, hp]

theorem sendsFor_notice_sleep (id : String) (t : String) (n : Nat) (tr : List Ev) :
    sendsFor id (Ev.notice t :: Ev.sleep n :: tr) = sendsFor id tr := by
  simp [sendsFor, isSendFor]

theorem sendsFor_sleep (id : String) (n : Nat) (tr : List Ev) :
    sendsFor id (Ev.sleep n :: tr) = sendsFor id tr := by
  simp [sendsFor, isSendFor]

theorem addsFor_notice_sleep (id : String) (t : String) (n : Nat) (tr : List Ev) :
    addsFor id (Ev.notice t :: Ev.sleep n :: tr) = addsFor id tr := by
  simp [addsFor, isAddFor]

theorem addsFor_sleep (id : String) (n : Nat) (tr : List Ev) :
    addsFor id (Ev.sleep n :: tr) = addsFor id tr := by
  simp [addsFor, isAddFor]

theorem mainLoop_mono (cfg : Config) (bal : ℚ) :
    ∀ (resps : List (Except Err (Option (List Tx)))) (o : List (Option Err))
      (seen : List String) (x : String),
    x ∈ seen → x ∈ (mainLoop cfg bal o seen resps).seen := by
  intro resps
  induction resps with
  | nil => intro o seen x hx; simpa [mainLoop] using hx
  | cons resp rest ih =>
    intro o seen x hx
    rcases hf : fetch_transactions resp with e | txs
    · rcases hn : callErr o with _ | e₂
      · rw [mainLoop_cons_fetchErr cfg bal o seen resp rest e hf hn]
        exact ih _ seen x hx
      · rw [mainLoop_cons_fetchErrCrash cfg bal o seen resp rest e e₂ hf hn]
        exact hx
    · rcases hp : (pollTxs cfg bal o seen txs).err with _ | e
      · rw [mainLoop_cons_ok cfg bal o seen resp rest txs hf hp]
        exact ih _ _ x (pollTxs_mono cfg bal txs o seen x hx)
      · rcases hn : callErr (pollTxs cfg bal o seen txs).oracle with _ | e₂
        · rw [mainLoop_cons_pollErr cfg bal o seen resp rest txs e hf hp hn]
          exact ih _ _ x (pollTxs_mono cfg bal txs o seen x hx)
        · rw [mainLoop_cons_pollErrCrash cfg bal o seen resp rest txs e e₂ hf hp hn]
          exact pollTxs_mono cfg bal txs o seen x hx

theorem mainLoop_absorb (cfg : Config) (bal : ℚ) :
    ∀ (resps : List (Except Err (Option (List Tx)))) (o : List (Option Err))
      (seen : List String) (id : String),
    id ∈ seen →
    sendsFor id (mainLoop cfg bal o seen resps).trace = [] ∧
    addsFor id (mainLoop cfg bal o seen resps).trace = [] := by
  intro resps
  induction resps with
  | nil => intro o seen id _; simp [mainLoop, sendsFor, addsFor]
  | cons resp rest ih =>
    intro o seen id hid
    rcases hf : fetch_transactions resp with e | txs
    · rcases hn : callErr o with _ | e₂
      · rw [mainLoop_cons_fetchErr cfg bal o seen resp rest e hf hn]
        rw [sendsFor_notice_sleep, addsFor_notice_sleep]
        exact ih _ seen id hid
      · rw [mainLoop_cons_fetchErrCrash cfg bal o seen resp rest e e₂ hf hn]
        simp [sendsFor, addsFor]
    · have hP := pollTxs_absorb cfg bal txs o seen id hid
      rcases hp : (pollTxs cfg bal o seen txs).err with _ | e
      · rw [mainLoop_cons_ok cfg bal o seen resp rest txs hf hp]
        rw [sendsFor_append, addsFor_append, sendsFor_sleep, addsFor_sleep, hP.1, hP.2]
        have hrest := ih (pollTxs cfg bal o seen txs).oracle
          (pollTxs cfg bal o seen txs).seen id (pollTxs_mono cfg bal txs o seen id hid)
        rw [hrest.1, hrest.2]
        simp
      · rcases hn : callErr (pollTxs cfg bal o seen txs).oracle with _ | e₂
        · rw [mainLoop_cons_pollErr cfg bal o seen resp rest txs e hf hp hn]
          rw [sendsFor_append, addsFor_append, sendsFor_notice_sleep, addsFor_notice_sleep,
            hP.1, hP.2]
          have hrest := ih (callRest (pollTxs cfg bal o seen txs).oracle)
            (pollTxs cfg bal o seen txs).seen id (pollTxs_mono cfg bal txs o seen id hid)
          rw [hrest.1, hrest.2]
          simp
        · rw [mainLoop_cons_pollErrCrash cfg bal o seen resp rest txs e e₂ hf hp hn]
          exact hP

theorem mainLoop_adds (cfg : Config) (bal : ℚ) :
    ∀ (resps : List (Except Err (Option (List Tx)))) (o : List (Option Err))
      (seen : List String) (id : String),
    (addsFor id (mainLoop cfg bal o seen resps).trace).length ≤ 1 ∧
    (addsFor id (mainLoop cfg bal o seen resps).trace ≠ [] →
      id ∈ (mainLoop cfg bal o seen resps).seen) := by
  intro resps
  induction resps with
  | nil => intro o seen id; simp [mainLoop, addsFor]
  | cons resp rest ih =>
    intro o seen id
    rcases hf : fetch_transactions resp with e | txs
    · rcases hn : callErr o with _ | e₂
      · rw [mainLoop_cons_fetchErr cfg bal o seen resp rest e hf hn, addsFor_notice_sleep]
        exact ih _ seen id
      · rw [mainLoop_cons_fetchErrCrash cfg bal o seen resp rest e e₂ hf hn]
        simp [addsFor]
    · have hP := pollTxs_adds cfg bal txs o seen id
      rcases hp : (pollTxs cfg bal o seen txs).err with _ | e
      · rw [mainLoop_cons_ok cfg bal o seen resp rest txs hf hp]
        rw [addsFor_append, addsFor_sleep]
        by_cases hz : addsFor id (pollTxs cfg bal o seen txs).trace = []
        · rw [hz, List.nil_append]
          exact ih _ _ id
        · have hidp := hP.2 hz
          have habs := (mainLoop_absorb cfg bal rest (pollTxs cfg bal o seen txs).oracle
            (pollTxs cfg bal o seen txs).seen id hidp).2
          rw [habs, List.append_nil]
          exact ⟨hP.1, fun _ => mainLoop_mono cfg bal rest _ _ id hidp⟩
      · rcases hn : callErr (pollTxs cfg bal o seen txs).oracle with _ | e₂
        · rw [mainLoop_cons_pollErr cfg bal o seen resp rest txs e hf hp hn]
          rw [addsFor_append, addsFor_notice_sleep]
          by_cases hz : addsFor id (pollTxs cfg bal o seen txs).trace = []
          · rw [hz, List.nil_append]
            exact ih _ _ id
          · have hidp := hP.2 hz
            have habs := (mainLoop_absorb cfg bal rest
              (callRest (pollTxs cfg bal o seen txs).oracle)
              (pollTxs cfg bal o seen txs).seen id hidp).2
            rw [habs, List.append_nil]
            exact ⟨hP.1, fun _ => mainLoop_mono cfg bal rest _ _ id hidp⟩
        · rw [mainLoop_cons_pollErrCrash cfg bal o seen resp rest txs e e₂ hf hp hn]
          exact hP

theorem mainLoop_sends (cfg : Config) (bal : ℚ) :
    ∀ (resps : List (Except Err (Option (List Tx)))) (seen : List String) (id : String),
    sendsFor id (mainLoop cfg bal [] seen resps).trace = [] ∨
    ∃ resp ∈ resps, ∃ txs, fetch_transactions resp = .ok txs ∧
      ∃ t ∈ txs, t.txID = id ∧ id ∈ (mainLoop cfg bal [] seen resps).seen ∧
        sendsFor id (mainLoop cfg bal [] seen resps).trace =
          sendsFor id (txEvents cfg bal t) := by
  intro resps
  induction resps with
  | nil => intro seen id; left; simp [mainLoop, sendsFor]
  | cons resp rest ih =>
    intro seen id
    rcases hf : fetch_transactions resp with e | txs
    · rw [mainLoop_cons_fetchErr cfg bal [] seen resp rest e hf rfl,
        show callRest ([] : List (Option Err)) = [] from rfl, sendsFor_notice_sleep]
      rcases ih seen id with h | ⟨r', hr', txs', hok', t, ht, h₁, h₂, h₃⟩
      · left; exact h
      · right; exact ⟨r', List.mem_cons_of_mem resp hr', txs', hok', t, ht, h₁, h₂, h₃⟩
    · rcases pollTxs_nil_state cfg bal txs seen with ⟨hperr, hpor⟩
      rw [mainLoop_cons_ok cfg bal [] seen resp rest txs hf hperr, hpor,
        sendsFor_append, sendsFor_sleep]
      rcases pollTxs_sends cfg bal txs seen id with hz | ⟨t, htmem, htid, hidp, hps⟩
      · rw [hz, List.nil_append]
        rcases ih (pollTxs cfg bal [] seen txs).seen id with h | ⟨r', hr', txs', hok', t, ht, h₁, h₂, h₃⟩
        · left; exact h
        · right; exact ⟨r', List.mem_cons_of_mem resp hr', txs', hok', t, ht, h₁, h₂, h₃⟩
      · have habs := (mainLoop_absorb cfg bal rest []
          (pollTxs cfg bal [] seen txs).seen id hidp).1
        rw [habs, List.append_nil, hps]
        right
        exact ⟨resp, List.mem_cons_self resp rest, txs, hf, t, htmem, htid,
          mainLoop_mono cfg bal rest [] _ id hidp, rfl⟩

theorem foldl_insert_mono :
    ∀ (l : List Tx) (s : List String) (x : String), x ∈ s →
    x ∈ l.foldl (fun s t => s.insert t.txID) s := by
  intro l
  induction l with
  | nil => intro s x hx; simpa using hx
  | cons t rest ih =>
    intro s x hx
    exact ih (s.insert t.txID) x (List.mem_insert_iff.mpr (Or.inr hx))

theorem foldl_insert_mem :
    ∀ (l : List Tx) (s : List String) (t : Tx), t ∈ l →
    t.txID ∈ l.foldl (fun s t => s.insert t.txID) s := by
  intro l
  induction l with
  | nil => intro s t ht; simp at ht
  | cons x rest ih =>
    intro s t ht
    rcases List.mem_cons.mp ht with rfl | hmem
    · exact foldl_insert_mono rest (s.insert t.txID) t.txID
        (List.mem_insert_iff.mpr (Or.inl rfl))
    · exact ih (s.insert x.txID) t hmem

theorem flatMap_no_sendTrx (cfg : Config) (txid : String) (infos : List TokenInfo) :
    (infos.flatMap (tokenEvs cfg txid)).filter isSendTrx = [] := by
  refine List.filter_eq_nil_iff.mpr ?_
  intro e he
  rcases List.mem_flatMap.mp he with ⟨info, _, hi⟩
  rcases (mem_tokenEvs cfg txid info e).mp hi with ⟨_, _, rfl⟩
  simp [isSendTrx]

theorem flatMap_no_balQuery (cfg : Config) (txid : String) (infos : List TokenInfo) :
    Ev.balQuery ∉ infos.flatMap (tokenEvs cfg txid) := by
  intro he
  rcases List.mem_flatMap.mp he with ⟨info, _, hi⟩
  rcases (mem_tokenEvs cfg txid info _).mp hi with ⟨_, _, h⟩
  simp at h

theorem flatMap_filter_balQuery (cfg : Config) (txid : String) (infos : List TokenInfo) :
    (infos.flatMap (tokenEvs cfg txid)).filter isBalQuery = [] := by
  refine List.filter_eq_nil_iff.mpr ?_
  intro e he
  rcases List.mem_flatMap.mp he with ⟨info, _, hi⟩
  rcases (mem_tokenEvs cfg txid info e).mp hi with ⟨_, _, rfl⟩
  simp [isBalQuery]

theorem sendTrx_mem_handle (cfg : Config) (bal : ℚ) (seen : List String) (tx : Tx)
    (id : String) (amt : ℚ) (dir txt : String)
    (hm : Ev.sendTrx id amt dir txt ∈ (handle_tx cfg bal [] seen tx).trace) :
    id = tx.txID ∧ amt = trxAmount tx ∧ dir = trxDirection cfg tx ∧
    txt = trxText (trxDirection cfg tx) (trxAmount tx) tx.txID (get_balance bal) ∧
    tx.contract.type = "TransferContract" ∧ ¬ trxAmount tx < cfg.MIN_TRX := by
  by_cases h : tx.txID ∈ seen
  · rw [handle_tx_skip cfg bal [] seen tx h] at hm
    simp at hm
  · rw [handle_tx_nil cfg bal seen tx h] at hm
    simp only [txEvents_eq] at hm
    rcases List.mem_append.mp hm with hp | ha
    · rcases List.mem_append.mp hp with hn | hf
      · rcases (mem_nativeEvs cfg bal tx _).mp hn with ⟨hty, hlt, hor | hor⟩
        · simp at hor
        · rcases Ev.sendTrx.injEq .. ▸ hor with ⟨h₁, h₂, h₃, h₄⟩
          exact ⟨h₁, h₂, h₃, h₄, hty, hlt⟩
      · rcases List.mem_flatMap.mp hf with ⟨info, _, hi⟩
        rcases (mem_tokenEvs cfg tx.txID info _).mp hi with ⟨_, _, hcon⟩
        simp at hcon
    · simp at ha

theorem sendUsdt_mem_handle (cfg : Config) (bal : ℚ) (seen : List String) (tx : Tx)
    (id : String) (amt : ℚ) (dir txt : String)
    (hm : Ev.sendUsdt id amt dir txt ∈ (handle_tx cfg bal [] seen tx).trace) :
    ∃ info ∈ tx.trc20TransferInfo,
      lower info.contract_address = USDT_HEX ∧ ¬ usdtAmount info < cfg.MIN_USDT ∧
      id = tx.txID ∧ amt = usdtAmount info ∧ dir = usdtDirection cfg info ∧
      txt = usdtText (usdtDirection cfg info) (usdtAmount info) tx.txID := by
  by_cases h : tx.txID ∈ seen
  · rw [handle_tx_skip cfg bal [] seen tx h] at hm
    simp at hm
  · rw [handle_tx_nil cfg bal seen tx h] at hm
    simp only [txEvents_eq] at hm
    rcases List.mem_append.mp hm with hp | ha
    · rcases List.mem_append.mp hp with hn | hf
      · rcases (mem_nativeEvs cfg bal tx _).mp hn with ⟨_, _, hor | hor⟩ <;> simp at hor
      · rcases List.mem_flatMap.mp hf with ⟨info, hinfo, hi⟩
        rcases (mem_tokenEvs cfg tx.txID info _).mp hi with ⟨hc, hlt, heq⟩
        rcases Ev.sendUsdt.injEq .. ▸ heq with ⟨h₁, h₂, h₃, h₄⟩
        exact ⟨info, hinfo, hc, hlt, h₁, h₂, h₃, h₄⟩
    · simp at ha

theorem direction_iff (s : String) (c : Prop) [Decidable c]
    (hdir : s = if c then "⬇️ IN" else "⬆️ OUT") :
    (s = "⬇️ IN" ↔ c) ∧ (s = "⬆️ OUT" ↔ ¬ c) := by
  by_cases hc : c
  · rw [if_pos hc] at hdir
    subst hdir
    exact ⟨⟨fun _ => hc, fun _ => rfl⟩, ⟨fun h => absurd h (by decide), fun h => absurd hc h⟩⟩
  · rw [if_neg hc] at hdir
    subst hdir
    exact ⟨⟨fun h => absurd h (by decide), fun h => absurd h hc⟩, ⟨fun _ => hc, fun _ => rfl⟩⟩

theorem pad2_len : ∀ m : Nat, m < 100 → (pad2 m).length = 2 := by decide

theorem fmt2_shape (q : ℚ) :
    ∃ a b : String, fmt2 q = a ++ "." ++ b ∧ b.length = 2 := by
  refine ⟨toString (rhe (q * 100) / 100), pad2 (rhe (q * 100) % 100).toNat, rfl, ?_⟩
  have h0 : (0 : ℤ) ≤ rhe (q * 100) % 100 := Int.emod_nonneg _ (by norm_num)
  have h1 : rhe (q * 100) % 100 < 100 := Int.emod_lt_of_pos _ (by norm_num)
  exact pad2_len _ (by omega)

theorem trxText_contains_fmt2 (d : String) (a : ℚ) (i : String) (b : ℚ) :
    ∃ p q, trxText d a i b = p ++ fmt2 a ++ q := by
  refine ⟨d ++ " **", " TRX**\n" ++ trx_link i ++ "\n💰 Balance: `" ++ balanceRepr b ++
    " TRX`", ?_⟩
  simp [trxText, String.append_assoc]

theorem usdtText_contains_fmt2 (io : String) (a : ℚ) (i : String) :
    ∃ p q, usdtText io a i = p ++ fmt2 a ++ q := by
  refine ⟨io ++ " **", " USDT**\n" ++ trx_link i, ?_⟩
  simp [usdtText, String.append_assoc]

theorem trxText_contains_link (d : String) (a : ℚ) (i : String) (b : ℚ) :
    ∃ p q, trxText d a i b = p ++ trx_link i ++ q := by
  refine ⟨d ++ " **" ++ fmt2 a ++ " TRX**\n", "\n💰 Balance: `" ++ balanceRepr b ++
    " TRX`", ?_⟩
  simp [trxText, String.append_assoc]

theorem trxText_contains_balance (d : String) (a : ℚ) (i : String) (b : ℚ) :
    ∃ p q, trxText d a i b = p ++ balanceRepr b ++ q := by
  refine ⟨d ++ " **" ++ fmt2 a ++ " TRX**\n" ++ trx_link i ++ "\n💰 Balance: `",
    " TRX`", ?_⟩
  simp [trxText, String.append_assoc]

theorem lower_USDT_HEX : lower USDT_HEX = USDT_HEX := by decide

theorem lower_AB : lower "AB" = "ab" := by decide

theorem exTxToken_trace : (handle_tx exCfg 0 [] [] exTxToken).trace =
    [Ev.sendUsdt "t5" 2 "⬇️ IN" (usdtText "⬇️ IN" 2 "t5"), Ev.addSeen "t5"] := by
  norm_num [handle_tx, notify_trx, notify_usdt, tokenLoop, exCfg, exTxToken,
    callErr, callRest, lower_USDT_HEX, lower_AB, trxAmount, trxDirection,
    usdtAmount, usdtDirection]

theorem exTxNative_trace : (handle_tx exCfg 0 [] [] exTxNative).trace =
    [Ev.balQuery,
     Ev.sendTrx "tA" 5 "⬇️ IN" (trxText "⬇️ IN" 5 "tA" (get_balance 0)),
     Ev.addSeen "tA"] := by
  norm_num [handle_tx, notify_trx, notify_usdt, tokenLoop, exCfg, exTxNative,
    callErr, callRest, trxAmount, trxDirection]

theorem exTxBoth_loop_trace :
    (mainLoop exCfg 0 [] [] [Except.ok (some [exTxBoth])]).trace =
      [Ev.balQuery,
       Ev.sendTrx "t1" 5 "⬇️ IN" (trxText "⬇️ IN" 5 "t1" (get_balance 0)),
       Ev.sendUsdt "t1" 3 "⬇️ IN" (usdtText "⬇️ IN" 3 "t1"),
       Ev.addSeen "t1", Ev.sleep 15] := by
  norm_num [mainLoop, pollTxs, fetch_transactions, handle_tx, notify_trx, notify_usdt,
    tokenLoop, exCfg, exTxBoth, callErr, callRest, lower_USDT_HEX, lower_AB,
    trxAmount, trxDirection, usdtAmount, usdtDirection]

/-- Claim C2 (confirmed): processing a transaction whose identifier is
already in the deduplication set is a complete no-op: no events at all (no
classification effect, no notification, no balance query), the set is
unchanged, the oracle is untouched and nothing is raised. -/
theorem claim_C2 (cfg : Config) (bal : ℚ) (o : List (Option Err))
    (seen : List String) (tx : Tx) (h : tx.txID ∈ seen) :
    handle_tx cfg bal o seen tx = ⟨[], seen, o, none⟩ :=
  handle_tx_skip cfg bal o seen tx h

theorem claim_C2_witness :
    handle_tx exCfg 0 [] ["tA"] exTxNative = ⟨[], ["tA"], [], none⟩ :=
  claim_C2 exCfg 0 [] ["tA"] exTxNative (by decide)

/-- Claim C7 (confirmed): the startup phase emits no event whatsoever (in
particular no notification and no notice, also when the startup fetch
fails), every transaction of a successful initial fetch has its identifier
in the deduplication set afterwards, and a failed startup fetch is absorbed
into an empty deduplication set. -/
theorem claim_C7 (cfg : Config) (bal : ℚ) (o : List (Option Err))
    (resp : Except Err (Option (List Tx))) :
    (main cfg bal resp o []).trace = [] ∧
    (∀ txs, fetch_transactions resp = .ok txs →
      ∀ t ∈ txs, t.txID ∈ startupSeen resp) ∧
    (∀ e, fetch_transactions resp = .error e → startupSeen resp = []) := by
  refine ⟨rfl, ?_, ?_⟩
  · intro txs hok t ht
    unfold startupSeen
    rw [hok]
    exact foldl_insert_mem txs [] t ht
  · intro e herr
    unfold startupSeen
    rw [herr]

theorem claim_C7_witness :
    (main exCfg 0 (Except.ok (some [exTxNative])) [] []).trace = [] ∧
    "tA" ∈ startupSeen (Except.ok (some [exTxNative])) ∧
    startupSeen (Except.error (Err.network "down") :
      Except Err (Option (List Tx))) = [] := by
  refine ⟨(claim_C7 exCfg 0 [] (Except.ok (some [exTxNative]))).1, ?_, ?_⟩
  · exact (claim_C7 exCfg 0 [] (Except.ok (some [exTxNative]))).2.1
      [exTxNative] rfl exTxNative (by decide)
  · exact (claim_C7 exCfg 0 [] (Except.error (Err.network "down"))).2.2
      (Err.network "down") rfl

/-- Claim C8 (amended): a failure raised while polling or notifying is
caught and classified by exception class — the network notice for
`aiohttp.ClientError`/`asyncio.TimeoutError` failures, the generic bot
notice for every other exception.  Provided the error-notice delivery
itself succeeds, the iteration emits exactly one notice of the matching
class followed by a 30 second pause and the loop continues with the
remaining iterations unchanged, the events produced before the failure
containing no notice.  When the notice delivery raises, however, the new
exception escapes the loop, which terminates at once with no notice, no
pause, and the remaining iterations unprocessed — the original claim's
unconditional `the loop does not terminate` is false (see the
counterexample). -/
theorem claim_C8 (cfg : Config) (bal : ℚ) (o : List (Option Err))
    (seen : List String) (resp : Except Err (Option (List Tx)))
    (rest : List (Except Err (Option (List Tx)))) :
    (∀ e, fetch_transactions resp = .error e →
      (callErr o = none →
        mainLoop cfg bal o seen (resp :: rest) =
          ⟨Ev.notice (errNotice e) :: Ev.sleep 30 ::
            (mainLoop cfg bal (callRest o) seen rest).trace,
           (mainLoop cfg bal (callRest o) seen rest).seen,
           (mainLoop cfg bal (callRest o) seen rest).oracle,
           (mainLoop cfg bal (callRest o) seen rest).crashed⟩) ∧
      (∀ e₂, callErr o = some e₂ →
        mainLoop cfg bal o seen (resp :: rest) = ⟨[], seen, callRest o, some e₂⟩)) ∧
    (∀ txs e, fetch_transactions resp = .ok txs →
      (pollTxs cfg bal o seen txs).err = some e →
      (callErr (pollTxs cfg bal o seen txs).oracle = none →
        mainLoop cfg bal o seen (resp :: rest) =
          ⟨(pollTxs cfg bal o seen txs).trace ++ Ev.notice (errNotice e) :: Ev.sleep 30 ::
            (mainLoop cfg bal (callRest (pollTxs cfg bal o seen txs).oracle)
              (pollTxs cfg bal o seen txs).seen rest).trace,
           (mainLoop cfg bal (callRest (pollTxs cfg bal o seen txs).oracle)
             (pollTxs cfg bal o seen txs).seen rest).seen,
           (mainLoop cfg bal (callRest (pollTxs cfg bal o seen txs).oracle)
             (pollTxs cfg bal o seen txs).seen rest).oracle,
           (mainLoop cfg bal (callRest (pollTxs cfg bal o seen txs).oracle)
             (pollTxs cfg bal o seen txs).seen rest).crashed⟩) ∧
      (∀ e₂, callErr (pollTxs cfg bal o seen txs).oracle = some e₂ →
        mainLoop cfg bal o seen (resp :: rest) =
          ⟨(pollTxs cfg bal o seen txs).trace, (pollTxs cfg bal o seen txs).seen,
           callRest (pollTxs cfg bal o seen txs).oracle, some e₂⟩) ∧
      (pollTxs cfg bal o seen txs).trace.filter isNotice = []) ∧
    (∀ m, errNotice (Err.network m) = "⚠️ Network error: " ++ m) ∧
    (∀ m, errNotice (Err.other m) = "⚠️ Bot error: " ++ m) := by
  refine ⟨?_, ?_, fun m => rfl, fun m => rfl⟩
  · intro e hf
    exact ⟨fun hn => mainLoop_cons_fetchErr cfg bal o seen resp rest e hf hn,
      fun e₂ hn => mainLoop_cons_fetchErrCrash cfg bal o seen resp rest e e₂ hf hn⟩
  · intro txs e hf hp
    refine ⟨fun hn => mainLoop_cons_pollErr cfg bal o seen resp rest txs e hf hp hn,
      fun e₂ hn => mainLoop_cons_pollErrCrash cfg bal o seen resp rest txs e e₂ hf hp hn,
      ?_⟩
    refine List.filter_eq_nil_iff.mpr ?_
    intro ev hev
    simp [pollTxs_no_notice cfg bal txs o seen ev hev]

/-- Counterexample to claim C8 as stated: the fetch of the first iteration
fails with a network error, and the notice send of the `except` arm — which
the source issues outside any `try` — itself raises.  The raised exception
escapes `main`: the run ends with an empty trace (no notice of any class,
no 30 unit pause), the deduplication set untouched, and the second
iteration, which would have handled and announced `exTxNative`, never runs —
refuting `the loop does not terminate ... then pauses 30 time units and
resumes polling`. -/
theorem claim_C8_cex :
    mainLoop exCfg 0 [some (Err.other "telegram down")] []
      [Except.error (Err.network "boom"), Except.ok (some [exTxNative])] =
      ⟨[], [], [], some (Err.other "telegram down")⟩ := by
  decide

theorem claim_C8_witness :
    mainLoop exCfg 0 [] [] [Except.error (Err.network "boom")] =
      ⟨[Ev.notice "⚠️ Network error: boom", Ev.sleep 30], [], [], none⟩ := by
  have h := ((claim_C8 exCfg 0 [] [] (Except.error (Err.network "boom")) []).1
    (Err.network "boom") rfl).1 rfl
  exact h.trans (by decide)

/-- Claim C9 (confirmed): the fetcher returns the data array of the provider
response as is, an empty sequence when the response has no data field, and
propagates a transport failure unchanged to its caller; the request timeout
bound of the source is 20 time units. -/
theorem claim_C9 :
    (∀ l : List Tx, fetch_transactions (Except.ok (some l)) = Except.ok l) ∧
    fetch_transactions (Except.ok (none : Option (List Tx))) = Except.ok ([] : List Tx) ∧
    (∀ e : Err, fetch_transactions (Except.error e) = Except.error e) ∧
    fetch_timeout = 20 :=
  ⟨fun _ => rfl, rfl, fun _ => rfl, rfl⟩

/-- Claim C10 (confirmed): while handling an unseen transaction, any raising
external call (the balance query or either notification send) leaves the
deduplication set untouched and no insert event happens — the insert is the
last event, after every notification of the transaction — so the next poll
reprocesses the transaction completely, repeating the (possibly nonempty)
prefix of notifications that was already delivered before the failure. -/
theorem claim_C10 (cfg : Config) (bal : ℚ) (o : List (Option Err))
    (seen : List String) (tx : Tx) (h : tx.txID ∉ seen) :
    ((handle_tx cfg bal o seen tx).err ≠ none →
      (handle_tx cfg bal o seen tx).seen = seen ∧
      (∀ i, Ev.addSeen i ∉ (handle_tx cfg bal o seen tx).trace) ∧
      (∃ rest, txPre cfg bal tx = (handle_tx cfg bal o seen tx).trace ++ rest) ∧
      handle_tx cfg bal [] seen tx =
        ⟨txEvents cfg bal tx, seen.insert tx.txID, [], none⟩) ∧
    ((handle_tx cfg bal o seen tx).err = none →
      (handle_tx cfg bal o seen tx).trace = txEvents cfg bal tx ∧
      (handle_tx cfg bal o seen tx).seen = seen.insert tx.txID) ∧
    txEvents cfg bal tx = txPre cfg bal tx ++ [Ev.addSeen tx.txID] := by
  refine ⟨?_, (handle_tx_spec cfg bal o seen tx h).1, txEvents_eq cfg bal tx⟩
  intro herr
  rcases (handle_tx_spec cfg bal o seen tx h).2 herr with ⟨hs, hr⟩
  exact ⟨hs, handle_err_no_add cfg bal o seen tx herr, hr,
    handle_tx_nil cfg bal seen tx h⟩

theorem claim_C10_witness :
    (handle_tx exCfg 0 [none, none, some (Err.other "boom")] [] exTxBoth).seen = [] ∧
    handle_tx exCfg 0 [] [] exTxBoth =
      ⟨txEvents exCfg 0 exTxBoth, List.insert "t1" [], [], none⟩ := by
  have herr : (handle_tx exCfg 0 [none, none, some (Err.other "boom")] [] exTxBoth).err =
      some (Err.other "boom") := by
    norm_num [handle_tx, notify_trx, notify_usdt, tokenLoop, exCfg, exTxBoth,
      callErr, callRest, lower_USDT_HEX, lower_AB, trxAmount, trxDirection,
      usdtAmount, usdtDirection]
  have h := (claim_C10 exCfg 0 [none, none, some (Err.other "boom")] [] exTxBoth
    (by decide)).1 (by simp [herr])
  exact ⟨h.1, h.2.2.2⟩

/-- Claim C3 (confirmed): handling an unseen native transfer at or above the
TRX threshold queries the balance once and then sends exactly one
native-transfer notification, whose text carries the direction indicator,
the scaled amount, the explorer link and the freshly queried balance; below
the threshold no native notification is produced and no balance query is
made at all, yet the identifier still enters the deduplication set. -/
theorem claim_C3 (cfg : Config) (bal : ℚ) (seen : List String) (tx : Tx)
    (h1 : tx.txID ∉ seen) (h2 : tx.contract.type = "TransferContract") :
    (cfg.MIN_TRX ≤ trxAmount tx →
      (handle_tx cfg bal [] seen tx).trace =
        Ev.balQuery :: Ev.sendTrx tx.txID (trxAmount tx) (trxDirection cfg tx)
          (trxText (trxDirection cfg tx) (trxAmount tx) tx.txID (get_balance bal)) ::
          (tx.trc20TransferInfo.flatMap (tokenEvs cfg tx.txID) ++ [Ev.addSeen tx.txID]) ∧
      ((handle_tx cfg bal [] seen tx).trace.filter isSendTrx).length = 1 ∧
      ((handle_tx cfg bal [] seen tx).trace.filter isBalQuery).length = 1 ∧
      trxAmount tx = (tx.contract.value.amount : ℚ) / 1000000 ∧
      (∃ p q, trxText (trxDirection cfg tx) (trxAmount tx) tx.txID (get_balance bal) =
        p ++ fmt2 (trxAmount tx) ++ q) ∧
      (∃ p q, trxText (trxDirection cfg tx) (trxAmount tx) tx.txID (get_balance bal) =
        p ++ trx_link tx.txID ++ q) ∧
      (∃ p q, trxText (trxDirection cfg tx) (trxAmount tx) tx.txID (get_balance bal) =
        p ++ balanceRepr (get_balance bal) ++ q)) ∧
    (trxAmount tx < cfg.MIN_TRX →
      ((handle_tx cfg bal [] seen tx).trace.filter isSendTrx).length = 0 ∧
      Ev.balQuery ∉ (handle_tx cfg bal [] seen tx).trace ∧
      tx.txID ∈ (handle_tx cfg bal [] seen tx).seen) := by
  have htr : (handle_tx cfg bal [] seen tx).trace = txEvents cfg bal tx := by
    rw [handle_tx_nil cfg bal seen tx h1]
  have hsn : (handle_tx cfg bal [] seen tx).seen = seen.insert tx.txID := by
    rw [handle_tx_nil cfg bal seen tx h1]
  constructor
  · intro hge
    have hlt : ¬ trxAmount tx < cfg.MIN_TRX := not_lt.mpr hge
    have hnat : nativeEvs cfg bal tx =
        [Ev.balQuery, Ev.sendTrx tx.txID (trxAmount tx) (trxDirection cfg tx)
          (trxText (trxDirection cfg tx) (trxAmount tx) tx.txID (get_balance bal))] := by
      simp [nativeEvs, h2, hlt]
    rw [htr, txEvents_eq, txPre, hnat]
    refine ⟨by simp, ?_, ?_, rfl, trxText_contains_fmt2 _ _ _ _,
      trxText_contains_link _ _ _ _, trxText_contains_balance _ _ _ _⟩
    · simp [List.filter_append, flatMap_no_sendTrx, isSendTrx]
    · simp [List.filter_append, flatMap_filter_balQuery, isBalQuery]
  · intro hlt
    have hnat : nativeEvs cfg bal tx = [] := by simp [nativeEvs, h2, hlt]
    refine ⟨?_, ?_, ?_⟩
    · rw [htr, txEvents_eq, txPre, hnat]
      simp [List.filter_append, flatMap_no_sendTrx, isSendTrx]
    · rw [htr, txEvents_eq, txPre, hnat]
      intro hmem
      rcases List.mem_append.mp hmem with hp | ha
      · rcases List.mem_append.mp hp with hn | hfm
        · simp at hn
        · exact flatMap_no_balQuery cfg tx.txID tx.trc20TransferInfo hfm
      · simp at ha
    · rw [hsn]
      exact List.mem_insert_iff.mpr (Or.inl rfl)

theorem claim_C3_witness :
    ((handle_tx exCfg 0 [] [] exTxNative).trace.filter isSendTrx).length = 1 ∧
    ((handle_tx exCfg 0 [] [] exTxSmall).trace.filter isSendTrx).length = 0 ∧
    "tB" ∈ (handle_tx exCfg 0 [] [] exTxSmall).seen := by
  have hge : exCfg.MIN_TRX ≤ trxAmount exTxNative := by
    norm_num [exCfg, exTxNative, trxAmount]
  have hlt : trxAmount exTxSmall < exCfg.MIN_TRX := by
    norm_num [exCfg, exTxSmall, trxAmount]
  exact ⟨((claim_C3 exCfg 0 [] exTxNative (by decide) rfl).1 hge).2.1,
    ((claim_C3 exCfg 0 [] exTxSmall (by decide) rfl).2 hlt).1,
    ((claim_C3 exCfg 0 [] exTxSmall (by decide) rfl).2 hlt).2.2⟩

/-- Claim C4 (confirmed): for an unseen transaction the handler trace is the
native part followed by the per-sub-record token events and the final
insert; a sub-record matching the USDT contract case-insensitively (the
tracked constant is lower-case, so matching is `lower addr = USDT_HEX`) at
or above the USDT threshold contributes exactly one token notification,
which involves no balance query, and a non-matching sub-record contributes
nothing. -/
theorem claim_C4 (cfg : Config) (bal : ℚ) (seen : List String) (tx : Tx)
    (h : tx.txID ∉ seen) :
    ((handle_tx cfg bal [] seen tx).trace =
      nativeEvs cfg bal tx ++
        (tx.trc20TransferInfo.flatMap (tokenEvs cfg tx.txID) ++ [Ev.addSeen tx.txID])) ∧
    (∀ info : TokenInfo, lower info.contract_address = USDT_HEX →
      cfg.MIN_USDT ≤ usdtAmount info →
      tokenEvs cfg tx.txID info =
        [Ev.sendUsdt tx.txID (usdtAmount info) (usdtDirection cfg info)
          (usdtText (usdtDirection cfg info) (usdtAmount info) tx.txID)]) ∧
    (∀ info : TokenInfo, lower info.contract_address ≠ USDT_HEX →
      tokenEvs cfg tx.txID info = []) ∧
    (∀ info : TokenInfo, Ev.balQuery ∉ tokenEvs cfg tx.txID info) ∧
    lower USDT_HEX = USDT_HEX := by
  refine ⟨?_, ?_, ?_, ?_, lower_USDT_HEX⟩
  · have htr : (handle_tx cfg bal [] seen tx).trace = txEvents cfg bal tx := by
      rw [handle_tx_nil cfg bal seen tx h]
    rw [htr, txEvents_eq, txPre, List.append_assoc]
  · intro info hc hge
    simp [tokenEvs, hc, not_lt.mpr hge]
  · intro info hc
    simp [tokenEvs, hc]
  · intro info hbal
    rcases (mem_tokenEvs cfg tx.txID info _).mp hbal with ⟨_, _, hcon⟩
    simp at hcon

theorem claim_C4_witness :
    tokenEvs exCfg "t5" ⟨USDT_HEX, 2000000, "AB"⟩ =
      [Ev.sendUsdt "t5" (usdtAmount ⟨USDT_HEX, 2000000, "AB"⟩)
        (usdtDirection exCfg ⟨USDT_HEX, 2000000, "AB"⟩)
        (usdtText (usdtDirection exCfg ⟨USDT_HEX, 2000000, "AB"⟩)
          (usdtAmount ⟨USDT_HEX, 2000000, "AB"⟩) "t5")] ∧
    tokenEvs exCfg "t5" ⟨"beef", 2000000, "AB"⟩ = [] := by
  constructor
  · exact (claim_C4 exCfg 0 [] exTxToken (by decide)).2.1 ⟨USDT_HEX, 2000000, "AB"⟩
      lower_USDT_HEX (by norm_num [exCfg, usdtAmount])
  · exact (claim_C4 exCfg 0 [] exTxToken (by decide)).2.2.1 ⟨"beef", 2000000, "AB"⟩
      (by decide)

/-- Claim C5 (amended): direction is computed in two different ways.  A
native-transfer notification is marked incoming exactly when the raw
destination address equals the monitored raw hex address, an exact
case-sensitive comparison; a token notification is marked incoming exactly
when the lower-cased sub-record destination equals the monitored raw hex
address, a case-insensitive comparison.  The original claim, that every
classified transfer is incoming iff the destination exactly equals the raw
address, fails on the token path (see the counterexample). -/
theorem claim_C5 (cfg : Config) (bal : ℚ) (seen : List String) (tx : Tx)
    (id : String) (amt : ℚ) (dir txt : String) :
    (Ev.sendTrx id amt dir txt ∈ (handle_tx cfg bal [] seen tx).trace →
      ((dir = "⬇️ IN" ↔ tx.contract.value.to_address = cfg.MY_HEX) ∧
       (dir = "⬆️ OUT" ↔ ¬ tx.contract.value.to_address = cfg.MY_HEX))) ∧
    (Ev.sendUsdt id amt dir txt ∈ (handle_tx cfg bal [] seen tx).trace →
      ∃ info ∈ tx.trc20TransferInfo, amt = usdtAmount info ∧
        ((dir = "⬇️ IN" ↔ lower info.toAddr = cfg.MY_HEX) ∧
         (dir = "⬆️ OUT" ↔ ¬ lower info.toAddr = cfg.MY_HEX))) := by
  constructor
  · intro hm
    have hd := (sendTrx_mem_handle cfg bal seen tx id amt dir txt hm).2.2.1
    simp only [trxDirection] at hd
    exact direction_iff dir _ hd
  · intro hm
    rcases sendUsdt_mem_handle cfg bal seen tx id amt dir txt hm with
      ⟨info, hmem, _, _, _, hamt, hdir, _⟩
    refine ⟨info, hmem, hamt, ?_⟩
    simp only [usdtDirection] at hdir
    exact direction_iff dir _ hdir

/-- Counterexample to claim C5 as stated: `exTxToken` carries a single USDT
sub-record whose destination is `AB`, the upper-casing of the monitored raw
address `ab`, so the destination does not exactly equal the raw address —
yet the code lower-cases before comparing and sends a notification marked
incoming.  The claim instance `every token notification of this transaction
is marked incoming iff its destination exactly equals MY_HEX` is false. -/
theorem claim_C5_cex :
    ¬ (∀ (amt : ℚ) (dir txt : String),
        Ev.sendUsdt "t5" amt dir txt ∈ (handle_tx exCfg 0 [] [] exTxToken).trace →
        (dir = "⬇️ IN" ↔ ("AB" : String) = exCfg.MY_HEX)) := by
  intro hcl
  have hm : Ev.sendUsdt "t5" 2 "⬇️ IN" (usdtText "⬇️ IN" 2 "t5") ∈
      (handle_tx exCfg 0 [] [] exTxToken).trace := by
    rw [exTxToken_trace]
    simp
  have h := (hcl 2 "⬇️ IN" (usdtText "⬇️ IN" 2 "t5") hm).mp rfl
  have hmy : exCfg.MY_HEX = "ab" := rfl
  rw [hmy] at h
  exact absurd h (by decide)

theorem claim_C5_witness :
    ∃ info ∈ exTxToken.trc20TransferInfo, (2 : ℚ) = usdtAmount info ∧
      (("⬇️ IN" : String) = "⬇️ IN" ↔ lower info.toAddr = exCfg.MY_HEX) ∧
      (("⬇️ IN" : String) = "⬆️ OUT" ↔ ¬ lower info.toAddr = exCfg.MY_HEX) := by
  have hm : Ev.sendUsdt "t5" 2 "⬇️ IN" (usdtText "⬇️ IN" 2 "t5") ∈
      (handle_tx exCfg 0 [] [] exTxToken).trace := by
    rw [exTxToken_trace]
    simp
  exact (claim_C5 exCfg 0 [] exTxToken "t5" 2 "⬇️ IN" (usdtText "⬇️ IN" 2 "t5")).2 hm

/-- Claim C6 (confirmed over the exact-rational idealisation of Python
floats): every notified amount, native or token, is the raw integer
minor-unit amount divided by 1,000,000, the notification text contains that
amount rendered by the two-decimal format, and the rendering always has
exactly two digits after the decimal point. -/
theorem claim_C6 (cfg : Config) (bal : ℚ) (seen : List String) (tx : Tx)
    (id : String) (amt : ℚ) (dir txt : String) :
    (Ev.sendTrx id amt dir txt ∈ (handle_tx cfg bal [] seen tx).trace →
      amt = (tx.contract.value.amount : ℚ) / 1000000 ∧
      (∃ p q, txt = p ++ fmt2 amt ++ q) ∧
      (∃ a b, fmt2 amt = a ++ "." ++ b ∧ b.length = 2)) ∧
    (Ev.sendUsdt id amt dir txt ∈ (handle_tx cfg bal [] seen tx).trace →
      ∃ info ∈ tx.trc20TransferInfo, amt = (info.amount : ℚ) / 1000000 ∧
        (∃ p q, txt = p ++ fmt2 amt ++ q) ∧
        (∃ a b, fmt2 amt = a ++ "." ++ b ∧ b.length = 2)) := by
  constructor
  · intro hm
    rcases sendTrx_mem_handle cfg bal seen tx id amt dir txt hm with
      ⟨_, hamt, _, htxt, _, _⟩
    refine ⟨hamt, ?_, fmt2_shape amt⟩
    rw [htxt, hamt]
    exact trxText_contains_fmt2 _ _ _ _
  · intro hm
    rcases sendUsdt_mem_handle cfg bal seen tx id amt dir txt hm with
      ⟨info, hmem, _, _, _, hamt, _, htxt⟩
    refine ⟨info, hmem, hamt, ?_, fmt2_shape amt⟩
    rw [htxt, hamt]
    exact usdtText_contains_fmt2 _ _ _

theorem claim_C6_witness :
    (5 : ℚ) = (exTxNative.contract.value.amount : ℚ) / 1000000 ∧
    (∃ p q, trxText "⬇️ IN" 5 "tA" (get_balance 0) = p ++ fmt2 5 ++ q) ∧
    (∃ a b, fmt2 (5 : ℚ) = a ++ "." ++ b ∧ b.length = 2) := by
  have hm : Ev.sendTrx "tA" 5 "⬇️ IN" (trxText "⬇️ IN" 5 "tA" (get_balance 0)) ∈
      (handle_tx exCfg 0 [] [] exTxNative).trace := by
    rw [exTxNative_trace]
    simp
  exact (claim_C6 exCfg 0 [] exTxNative "tA" 5 "⬇️ IN"
    (trxText "⬇️ IN" 5 "tA" (get_balance 0))).1 hm

/-- Claim C1 (amended): over any run of the loop, under any pattern of
external-call failures, an identifier is inserted into the deduplication set
at most once.  When no external call fails (the empty oracle), all
notifications ever sent for an identifier are those of a single complete
handling of a single fetched transaction — so each individual notification
is sent at most once, and a transaction returned by two consecutive polls is
handled only the first time.  The original claim, that at most one
notification is ever sent per identifier, fails because one handling may
legitimately send several notifications for the same transaction (native
plus token, or several token sub-records); see the counterexample. -/
theorem claim_C1 (cfg : Config) (bal : ℚ) (o : List (Option Err))
    (seen₀ : List String) (resps : List (Except Err (Option (List Tx))))
    (id : String) :
    (addsFor id (mainLoop cfg bal o seen₀ resps).trace).length ≤ 1 ∧
    (sendsFor id (mainLoop cfg bal [] seen₀ resps).trace = [] ∨
      ∃ resp ∈ resps, ∃ txs, fetch_transactions resp = .ok txs ∧
        ∃ t ∈ txs, t.txID = id ∧
          sendsFor id (mainLoop cfg bal [] seen₀ resps).trace =
            sendsFor id (txEvents cfg bal t)) := by
  refine ⟨(mainLoop_adds cfg bal resps o seen₀ id).1, ?_⟩
  rcases mainLoop_sends cfg bal resps seen₀ id with h | ⟨r, hr, txs, hok, t, ht, h₁, _, h₃⟩
  · left; exact h
  · right; exact ⟨r, hr, txs, hok, t, ht, h₁, h₃⟩

/-- Counterexample to claim C1 as stated: a single poll returning the single
transaction `exTxBoth`, which carries a native transfer of 5 TRX and a
matching USDT sub-record of 3 USDT, both above their thresholds, makes the
loop send two notifications for the identifier `t1` — refuting `at most one
notification is ever sent for it`. -/
theorem claim_C1_cex :
    ¬ ((sendsFor "t1"
        (mainLoop exCfg 0 [] [] [Except.ok (some [exTxBoth])]).trace).length ≤ 1) := by
  intro hc
  have h2 : (sendsFor "t1"
      (mainLoop exCfg 0 [] [] [Except.ok (some [exTxBoth])]).trace).length = 2 := by
    rw [exTxBoth_loop_trace]
    simp [sendsFor, isSendFor]
  rw [h2] at hc
  omega

end RED3bot
